import Mathlib

/-!
Verification of the order-creation and inventory-consistency engine of the
Ahmed20055555/backend repository.

The embedding models, faithfully to the JavaScript source:
- the Product and Order mongoose documents (`Product.model.js`, `Order.model.js`),
  including the schema validators that run on every save: `price: min 0` and
  `stock.quantity: min 0` on Product, `items.quantity: min 1` on Order, and the
  unique index on `orderNumber`.  A save whose document violates a validator
  rejects and leaves the stored document unchanged, exactly as mongoose does.
- the order-number pre-save hook of `Order.model.js` (`generateOrderNumber`):
  count-derived candidate, probe-and-retry with a budget of 100, and the
  exhaustion fallback built from the millisecond clock tick.
- the POST /api/orders handler of `order.routes.js` (`createOrder`): the
  express-validator checks, the payment-method and bank-transfer checks, the
  per-item validation loop, the pricing computation with JavaScript `||`
  defaulting (a supplied 0 is falsy), `Order.create`, and the stock-decrement
  loop that runs after the order is persisted.
- the PUT /api/orders/:id/status handler (`updateStatus`): the status
  validator, the shippedAt/deliveredAt/cancelledAt blocks, the stock-restore
  loop guarded by `cancelledAt`, and the final order save.

Money amounts are rationals (JavaScript numbers; the claims under check only
concern which value is selected, never floating-point rounding), quantities
and counters are integers, and the store is a list of documents addressed by
identifier, with find returning the first match, as a single-document store.
-/

set_option maxRecDepth 8000

namespace Backend

/-- `stock` subdocument of the Product schema. -/
structure Stock where
  quantity : Int
  trackInventory : Bool
  deriving DecidableEq

/-- `sales` subdocument of the Product schema. -/
structure Sales where
  count : Int
  revenue : Int
  deriving DecidableEq

/-- A Product document (the fields the order engine reads and writes). -/
structure Product where
  id : Nat
  name : String
  price : Int
  images : List String
  stock : Stock
  sales : Sales
  isActive : Bool
  deriving DecidableEq

/-- Order status enum of the Order schema. -/
inductive OrderStatus
  | pending | confirmed | processing | shipped | delivered | cancelled
  deriving DecidableEq

/-- Payment method enum of the Order schema. -/
inductive PayMethod
  | cash | card | bank_transfer | stripe
  deriving DecidableEq

/-- Payment status enum of the Order schema. -/
inductive PayStatus
  | pending | paid | failed | refunded
  deriving DecidableEq

/-- `payment` subdocument of the Order schema. -/
structure Payment where
  method : PayMethod
  status : PayStatus
  transactionId : Option String
  accountNumber : Option String
  deriving DecidableEq

/-- `shipping` subdocument of the Order schema. -/
structure ShipInfo where
  trackingNumber : Option String
  estimatedDelivery : Option Nat
  shippedAt : Option Nat
  deliveredAt : Option Nat
  deriving DecidableEq

/-- `pricing` subdocument of the Order schema. -/
structure Pricing where
  subtotal : Int
  shipping : Int
  tax : Int
  discount : Int
  total : Int
  deriving DecidableEq

/-- An order item: the immutable snapshot stored on the order. -/
structure OrderItem where
  product : Nat
  name : String
  price : Int
  quantity : Int
  image : String
  deriving DecidableEq

/-- An Order document. -/
structure Order where
  id : Nat
  orderNumber : String
  user : Nat
  items : List OrderItem
  shippingAddress : String
  billingAddress : String
  pricing : Pricing
  payment : Payment
  status : OrderStatus
  shipping : ShipInfo
  notes : Option String
  cancelledAt : Option Nat
  isTest : Bool
  deriving DecidableEq

/-- An item of the creation request body (`items[i]`); `product` is absent when
the caller omitted the reference (`!item.product`). -/
structure ReqItem where
  product : Option Nat
  quantity : Int
  deriving DecidableEq

/-- The caller's `pricing` override object; every component is optional. -/
structure PricingInput where
  subtotal : Option Int
  shipping : Option Int
  tax : Option Int
  discount : Option Int
  total : Option Int
  deriving DecidableEq

/-- The caller's `payment` object.  `status` is accepted on the wire but the
handler never reads it. -/
structure PaymentInput where
  method : Option String
  status : Option String
  transactionId : Option String
  accountNumber : Option String
  deriving DecidableEq

/-- The POST /api/orders request body. -/
structure CreateRequest where
  items : List ReqItem
  shippingAddress : String
  billingAddress : Option String
  pricing : PricingInput
  payment : Option PaymentInput
  notes : Option String
  isTest : Option Bool
  deriving DecidableEq

/-- Ambient values the handlers read from the clock: the `YYYYMMDD` date
string, `Date.now()` in milliseconds, and `new Date()` as a timestamp. -/
structure Env where
  dateStr : String
  tickMs : Nat
  now : Nat
  deriving DecidableEq

/-- The durable store: the Product and Order collections, plus the identifier
the store will assign to the next inserted order. -/
structure St where
  products : List Product
  orders : List Order
  nextOrderId : Nat
  deriving DecidableEq

/-- `Product.findById`. -/
def findProduct (ps : List Product) (pid : Nat) : Option Product :=
  ps.find? (fun p => p.id == pid)

/-- `Order.findById`. -/
def findOrder (os : List Order) (oid : Nat) : Option Order :=
  os.find? (fun o => o.id == oid)

/-- `Order.findOne({ orderNumber })` as a Boolean existence check. -/
def orderNumberExists (os : List Order) (n : String) : Bool :=
  os.any (fun o => o.orderNumber == n)

/-- The Product schema validators on the modelled fields: `price: min 0` and
`stock.quantity: min 0`.  Mongoose runs them on every `save()`. -/
def validProduct (p : Product) : Prop :=
  0 ≤ p.price ∧ 0 ≤ p.stock.quantity

instance (p : Product) : Decidable (validProduct p) := by
  unfold validProduct; exact instDecidableAnd

/-- `product.save()`: commits the document when it passes schema validation,
rejects (returning `none`, the thrown ValidationError) otherwise.  The write
replaces the stored document with the same identifier. -/
def saveProduct (ps : List Product) (p : Product) : Option (List Product) :=
  if validProduct p then some (ps.map (fun q => if q.id == p.id then p else q)) else none

/-- The Order schema validator on the modelled fields: every item has
`quantity: min 1`.  Mongoose runs it on every save of an order. -/
def orderValid (o : Order) : Prop :=
  ∀ it ∈ o.items, 1 ≤ it.quantity

instance (o : Order) : Decidable (orderValid o) := by
  unfold orderValid; exact List.decidableBAll _ _

/-- `order.save()` write part: replaces the stored order with the same
identifier (validity is checked by the callers, as mongoose does before the
write). -/
def saveOrder (os : List Order) (o : Order) : List Order :=
  os.map (fun q => if q.id == o.id then o else q)

/-- `String(n).padStart(5, '0')`. -/
def pad5 (n : Nat) : String :=
  let s := toString n
  if s.length < 5 then String.mk (List.replicate (5 - s.length) '0') ++ s else s

/-- One candidate order number: `PREFIX-YYYYMMDD-<zero-padded sequence>`. -/
def candidate (pfx dateStr : String) (seq : Nat) : String :=
  pfx ++ "-" ++ dateStr ++ "-" ++ pad5 seq

/-- The probe loop of the orderNumber pre-save hook.  At loop entry number `c`
the current candidate is `cnd c` and the JavaScript `counter` variable equals
`c`; the body assigns the candidate `cnd (c+1)`, increments the counter, and on
`counter > 100` overwrites with the fallback and breaks.  The fuel argument is
only there for structural recursion; the initial call's fuel (101) exceeds the
retry budget, so it never decides the result. -/
def genProbe (ex : String → Bool) (cnd : Nat → String) (fb : String) : Nat → Nat → String
  | 0, counter => cnd counter
  | fuel + 1, counter =>
    if ex (cnd counter) then
      if counter + 1 > 100 then fb
      else genProbe ex cnd fb fuel (counter + 1)
    else cnd counter

/-- The orderNumber pre-save hook of `Order.model.js`: derive the candidate
sequence from the count of existing orders, probe for uniqueness with a budget
of 100 attempts, and on exhaustion fall back to
`PREFIX-YYYYMMDD-<Date.now()>`. -/
def generateOrderNumber (isTest : Bool) (count : Nat) (ex : String → Bool)
    (dateStr : String) (tickMs : Nat) : String :=
  let pfx := if isTest then "TEST" else "ORD"
  genProbe ex (fun k => candidate pfx dateStr (count + k))
    (pfx ++ "-" ++ dateStr ++ "-" ++ toString tickMs) 101 1

/-- Modelled from the spec sentence of the claim under check (C3), not from the
source: identical probing, but the exhaustion fallback is a clock tick combined
with a random suffix.  Used only to compare against `generateOrderNumber`. -/
def generateOrderNumberClaimed (isTest : Bool) (count : Nat) (ex : String → Bool)
    (dateStr : String) (tickMs : Nat) (rand : String) : String :=
  let pfx := if isTest then "TEST" else "ORD"
  genProbe ex (fun k => candidate pfx dateStr (count + k))
    (pfx ++ "-" ++ dateStr ++ "-" ++ toString tickMs ++ "-" ++ rand) 101 1

/-- JavaScript `x || d` on an optional number: `0` (and absence) is falsy. -/
def jsOr (x : Option Int) (d : Int) : Int :=
  match x with
  | none => d
  | some v => if v = 0 then d else v

/-- JavaScript truthiness of an optional string: absence and `""` are falsy. -/
def jsOrStr (x : Option String) : Option String :=
  match x with
  | none => none
  | some s => if s = "" then none else some s

/-- The `finalPricing` computation of the POST /api/orders handler.
`subtotal` is the item-derived sum `Σ price_i * quantity_i`. -/
def finalPricing (pin : PricingInput) (subtotal : Int) : Pricing :=
  { subtotal := jsOr pin.subtotal subtotal
  , shipping := jsOr pin.shipping 0
  , tax := jsOr pin.tax 0
  , discount := jsOr pin.discount 0
  , total := jsOr pin.total
      (subtotal + jsOr pin.shipping 0 + jsOr pin.tax 0 - jsOr pin.discount 0) }

/-- The error responses the POST /api/orders handler returns with status 400
before touching any state. -/
inductive CreateError
  | validation
  | invalidPaymentMethod
  | missingTransactionId
  | missingProductRef
  | productNotFound
  | productUnavailable
  | insufficientStock
  deriving DecidableEq

/-- Outcome of the POST /api/orders handler.  `rejected` is a 400 response
issued before any state change; `createFailed` is the 500 response when
`Order.create` itself throws (schema validation or duplicate orderNumber), with
no state change; `stockSaveFailed` is the 500 response when a product save in
the post-create decrement loop throws, with the order already persisted;
`success` is the 201 response. -/
inductive CreateOutcome
  | rejected (e : CreateError)
  | createFailed
  | stockSaveFailed (oid : Nat)
  | success (oid : Nat)
  deriving DecidableEq

/-- The per-item validation loop of the handler: missing reference, unknown
product, inactive product, and (for non-test orders) insufficient stock each
end the request; otherwise the item snapshot is accumulated together with the
running subtotal. -/
def processItems (isTest : Bool) (ps : List Product) :
    List ReqItem → Except CreateError (List OrderItem × Int)
  | [] => Except.ok ([], 0)
  | it :: rest =>
    match it.product with
    | none => Except.error CreateError.missingProductRef
    | some pid =>
      match findProduct ps pid with
      | none => Except.error CreateError.productNotFound
      | some p =>
        if p.isActive = false then Except.error CreateError.productUnavailable
        else if ¬ isTest = true ∧ p.stock.trackInventory = true ∧
                  p.stock.quantity < it.quantity then
          Except.error CreateError.insufficientStock
        else
          match processItems isTest ps rest with
          | Except.error e => Except.error e
          | Except.ok (ois, sub) =>
            Except.ok
              ({ product := p.id, name := p.name, price := p.price
               , quantity := it.quantity
               , image := (p.images.head?.getD "") } :: ois
              , p.price * it.quantity + sub)

/-- The post-create stock update loop: for each request item, re-fetch the
product and, when it exists and tracks inventory, decrement stock and bump the
sales counters, saving after each item.  A failed save throws, ending the loop
with the earlier saves kept (second component `false`). -/
def decrementLoop : List ReqItem → List Product → List Product × Bool
  | [], ps => (ps, true)
  | it :: rest, ps =>
    match it.product.bind (findProduct ps) with
    | none => decrementLoop rest ps
    | some p =>
      if p.stock.trackInventory = true then
        match saveProduct ps
          { p with
            stock := { p.stock with quantity := p.stock.quantity - it.quantity }
            sales := { count := p.sales.count + it.quantity
                     , revenue := p.sales.revenue + p.price * it.quantity } } with
        | some ps2 => decrementLoop rest ps2
        | none => (ps, false)
      else decrementLoop rest ps

/-- The stock-restore loop of the cancellation block: for each order item,
re-fetch the product and, when it exists and tracks inventory, put the item
quantity back on stock and reverse the sales counters (using the item's price
snapshot), saving after each item. -/
def restoreLoop : List OrderItem → List Product → List Product × Bool
  | [], ps => (ps, true)
  | it :: rest, ps =>
    match findProduct ps it.product with
    | none => restoreLoop rest ps
    | some p =>
      if p.stock.trackInventory = true then
        match saveProduct ps
          { p with
            stock := { p.stock with quantity := p.stock.quantity + it.quantity }
            sales := { count := p.sales.count - it.quantity
                     , revenue := p.sales.revenue - it.price * it.quantity } } with
        | some ps2 => restoreLoop rest ps2
        | none => (ps, false)
      else restoreLoop rest ps

/-- Does `pricing.total` pass `isFloat({ min: 0 })`?  A missing field fails the
validator. -/
def totalValid : Option Int → Bool
  | some t => decide (0 ≤ t)
  | none => false

/-- The express-validator chain of POST /api/orders: non-empty `items`,
non-empty `shippingAddress`, and a `pricing.total` that is a number `≥ 0`. -/
def requestValid (req : CreateRequest) : Bool :=
  (¬ req.items.isEmpty = true) && (req.shippingAddress ≠ "") && totalValid req.pricing.total

/-- The recognized payment methods. -/
def validPaymentMethods : List String :=
  ["cash", "card", "bank_transfer", "stripe"]

/-- `payment?.method && !validPaymentMethods.includes(payment.method)`. -/
def invalidMethod (req : CreateRequest) : Bool :=
  match jsOrStr (req.payment.bind PaymentInput.method) with
  | some m => ¬ validPaymentMethods.contains m = true
  | none => false

/-- `payment?.method === 'bank_transfer' && !payment?.transactionId`. -/
def missingBankTxn (req : CreateRequest) : Bool :=
  match req.payment.bind PaymentInput.method with
  | some m => m == "bank_transfer" && (jsOrStr (req.payment.bind PaymentInput.transactionId)).isNone
  | none => false

/-- Parse a payment-method string into the schema enum. -/
def parseMethod : String → Option PayMethod
  | "cash" => some PayMethod.cash
  | "card" => some PayMethod.card
  | "bank_transfer" => some PayMethod.bank_transfer
  | "stripe" => some PayMethod.stripe
  | _ => none

/-- The order document `Order.create` is called with: snapshot items, billing
address defaulting to the shipping address, the computed pricing, payment with
status forced to `pending`, the schema-default `pending` status, and the
orderNumber assigned by the pre-save hook. -/
def mkOrder (env : Env) (userId : Nat) (req : CreateRequest) (s : St)
    (ois : List OrderItem) (sub : Int) : Order :=
  { id := s.nextOrderId
  , orderNumber :=
      generateOrderNumber (req.isTest.getD false) s.orders.length
        (orderNumberExists s.orders) env.dateStr env.tickMs
  , user := userId
  , items := ois
  , shippingAddress := req.shippingAddress
  , billingAddress := (jsOrStr req.billingAddress).getD req.shippingAddress
  , pricing := finalPricing req.pricing sub
  , payment :=
    { method := ((jsOrStr (req.payment.bind PaymentInput.method)).bind parseMethod).getD
        PayMethod.cash
    , status := PayStatus.pending
    , transactionId := jsOrStr (req.payment.bind PaymentInput.transactionId)
    , accountNumber := jsOrStr (req.payment.bind PaymentInput.accountNumber) }
  , status := OrderStatus.pending
  , shipping := { trackingNumber := none, estimatedDelivery := none
                , shippedAt := none, deliveredAt := none }
  , notes := req.notes
  , cancelledAt := none
  , isTest := req.isTest.getD false }

/-- The POST /api/orders handler. -/
def createOrder (env : Env) (userId : Nat) (req : CreateRequest) (s : St) :
    CreateOutcome × St :=
  if requestValid req = false then (CreateOutcome.rejected CreateError.validation, s)
  else if invalidMethod req = true then
    (CreateOutcome.rejected CreateError.invalidPaymentMethod, s)
  else if missingBankTxn req = true then
    (CreateOutcome.rejected CreateError.missingTransactionId, s)
  else
    match processItems (req.isTest.getD false) s.products req.items with
    | Except.error e => (CreateOutcome.rejected e, s)
    | Except.ok (ois, sub) =>
      let o := mkOrder env userId req s ois sub
      if orderValid o ∧ orderNumberExists s.orders o.orderNumber = false then
        let s1 : St := { products := s.products, orders := s.orders ++ [o]
                       , nextOrderId := s.nextOrderId + 1 }
        let dec := decrementLoop req.items s.products
        if dec.2 = true then (CreateOutcome.success o.id, { s1 with products := dec.1 })
        else (CreateOutcome.stockSaveFailed o.id, { s1 with products := dec.1 })
      else (CreateOutcome.createFailed, s)

/-- Parse a status string against the Order schema enum (the PUT validator's
`isIn` list). -/
def parseStatus : String → Option OrderStatus
  | "pending" => some OrderStatus.pending
  | "confirmed" => some OrderStatus.confirmed
  | "processing" => some OrderStatus.processing
  | "shipped" => some OrderStatus.shipped
  | "delivered" => some OrderStatus.delivered
  | "cancelled" => some OrderStatus.cancelled
  | _ => none

/-- Outcome of the PUT /api/orders/:id/status handler.  `saveFailed` is the 500
response when a save throws mid-handler. -/
inductive UpdateOutcome
  | invalidStatus
  | notFound
  | saveFailed
  | updated (oid : Nat)
  deriving DecidableEq

/-- `if (trackingNumber) ...; if (estimatedDelivery) ...` — attach shipping
metadata only when supplied (and truthy). -/
def withTracking (o : Order) (tn : Option String) (ed : Option Nat) : Order :=
  let o1 :=
    match jsOrStr tn with
    | some t => { o with shipping := { o.shipping with trackingNumber := some t } }
    | none => o
  match ed with
  | some d => { o1 with shipping := { o1.shipping with estimatedDelivery := some d } }
  | none => o1

/-- The status assignment and the shippedAt/deliveredAt blocks of the PUT
/api/orders/:id/status handler (`order.status = status` then the two
conditional timestamps). -/
def applyStatus (env : Env) (st : OrderStatus) (o0 : Order) : Order :=
  let o1 := { o0 with status := st }
  let o2 :=
    if st = OrderStatus.shipped ∧ o1.shipping.shippedAt = none then
      { o1 with shipping := { o1.shipping with shippedAt := some env.now } }
    else o1
  if st = OrderStatus.delivered ∧ o2.shipping.deliveredAt = none then
    { o2 with shipping := { o2.shipping with deliveredAt := some env.now } }
  else o2

/-- The PUT /api/orders/:id/status handler. -/
def updateStatus (env : Env) (oid : Nat) (statusStr : String)
    (tn : Option String) (ed : Option Nat) (s : St) : UpdateOutcome × St :=
  match parseStatus statusStr with
  | none => (UpdateOutcome.invalidStatus, s)
  | some st =>
    match findOrder s.orders oid with
    | none => (UpdateOutcome.notFound, s)
    | some o0 =>
      let o3 := applyStatus env st o0
      if st = OrderStatus.cancelled ∧ o3.cancelledAt = none then
        let o4 := { o3 with cancelledAt := some env.now }
        let res := restoreLoop o4.items s.products
        if res.2 = true then
          let o5 := withTracking o4 tn ed
          if orderValid o5 then
            (UpdateOutcome.updated oid,
             { s with products := res.1, orders := saveOrder s.orders o5 })
          else (UpdateOutcome.saveFailed, { s with products := res.1 })
        else (UpdateOutcome.saveFailed, { s with products := res.1 })
      else
        let o5 := withTracking o3 tn ed
        if orderValid o5 then
          (UpdateOutcome.updated oid, { s with orders := saveOrder s.orders o5 })
        else (UpdateOutcome.saveFailed, s)

/-- Stock of a product in a store, if present. -/
def stockOf (ps : List Product) (pid : Nat) : Option Int :=
  (findProduct ps pid).map (fun p => p.stock.quantity)

/-- Total quantity the request items order for a given product. -/
def qtySum : List ReqItem → Nat → Int
  | [], _ => 0
  | it :: rest, pid =>
    (if it.product = some pid then it.quantity else 0) + qtySum rest pid

/-- Total quantity the order items carry for a given product. -/
def oQtySum : List OrderItem → Nat → Int
  | [], _ => 0
  | it :: rest, pid =>
    (if it.product = pid then it.quantity else 0) + oQtySum rest pid

/-- Total snapshot revenue the order items carry for a given product. -/
def oRevSum : List OrderItem → Nat → Int
  | [], _ => 0
  | it :: rest, pid =>
    (if it.product = pid then it.price * it.quantity else 0) + oRevSum rest pid

/-- Net effect of a successful decrement loop on one product. -/
def decTrans (items : List ReqItem) (pid : Nat) (p : Product) : Product :=
  if p.stock.trackInventory = true then
    { p with
      stock := { p.stock with quantity := p.stock.quantity - qtySum items pid }
      sales := { count := p.sales.count + qtySum items pid
               , revenue := p.sales.revenue + p.price * qtySum items pid } }
  else p

/-- Net effect of a successful restore loop on one product. -/
def resTrans (items : List OrderItem) (pid : Nat) (p : Product) : Product :=
  if p.stock.trackInventory = true then
    { p with
      stock := { p.stock with quantity := p.stock.quantity + oQtySum items pid }
      sales := { count := p.sales.count - oQtySum items pid
               , revenue := p.sales.revenue - oRevSum items pid } }
  else p

/-- Is some request item bound to the given product? -/
def refs (items : List ReqItem) (pid : Nat) : Prop :=
  ∃ it ∈ items, it.product = some pid

instance (items : List ReqItem) (pid : Nat) : Decidable (refs items pid) := by
  unfold refs; exact List.decidableBEx _ _

/-! Concrete data used to evaluate the handlers at specific inputs. -/

/-- A stored order with no items (vacuously schema-valid). -/
def oW : Order :=
  { id := 1, orderNumber := "ORD-20260101-00001", user := 4
  , items := [], shippingAddress := "a", billingAddress := "a"
  , pricing := { subtotal := 0, shipping := 0, tax := 0, discount := 0, total := 0 }
  , payment := { method := PayMethod.cash, status := PayStatus.pending
               , transactionId := none, accountNumber := none }
  , status := OrderStatus.pending
  , shipping := { trackingNumber := none, estimatedDelivery := none
                , shippedAt := none, deliveredAt := none }
  , notes := none, cancelledAt := none, isTest := false }

/-- Clock values for evaluation. -/
def envW : Env := { dateStr := "20260101", tickMs := 999, now := 1000 }

/-- A second clock, for a later request. -/
def envW2 : Env := { dateStr := "20260102", tickMs := 555, now := 2000 }

/-- A third clock, for a yet later request. -/
def envW3 : Env := { dateStr := "20260103", tickMs := 333, now := 3000 }

/-- An active tracked product with stock 10. -/
def pW : Product :=
  { id := 1, name := "w", price := 5, images := ["i"]
  , stock := { quantity := 10, trackInventory := true }
  , sales := { count := 3, revenue := 15 }, isActive := true }

/-- The same product with stock 0. -/
def pZ : Product :=
  { pW with stock := { quantity := 0, trackInventory := true } }

/-- The same product with stock 1. -/
def pLow : Product :=
  { pW with stock := { quantity := 1, trackInventory := true } }

/-- Store with one in-stock product and no orders. -/
def sW : St := { products := [pW], orders := [], nextOrderId := 7 }

/-- Store with one zero-stock product and no orders. -/
def sZ : St := { products := [pZ], orders := [], nextOrderId := 7 }

/-- Store with one stock-1 product and no orders. -/
def sLow : St := { products := [pLow], orders := [], nextOrderId := 7 }

/-- Store holding only the order `oW`. -/
def sOrd : St := { products := [], orders := [oW], nextOrderId := 2 }

/-- Store holding `oW` already delivered. -/
def sDelivered : St :=
  { products := [], orders := [{ oW with status := OrderStatus.delivered }]
  , nextOrderId := 2 }

/-- A creation request for two units of product 1, with a supplied total of 0
and a supplied shipping of 2. -/
def reqW : CreateRequest :=
  { items := [{ product := some 1, quantity := 2 }]
  , shippingAddress := "addr", billingAddress := none
  , pricing := { subtotal := none, shipping := some 2, tax := none
               , discount := none, total := some 0 }
  , payment := none, notes := none, isTest := none }

/-- Like `reqW` but paying by card with a caller-supplied payment status. -/
def reqPaid : CreateRequest :=
  { reqW with
    pricing := { subtotal := none, shipping := none, tax := none
               , discount := none, total := some 10 },
    payment := some { method := some "card", status := some "paid"
                    , transactionId := none, accountNumber := none } }

/-- Like `reqW` but ordering five units (more than `pLow` has). -/
def reqBig : CreateRequest :=
  { reqW with items := [{ product := some 1, quantity := 5 }] }

/-- Like `reqW` but flagged as a test order. -/
def reqTest : CreateRequest :=
  { reqW with
    isTest := some true,
    pricing := { subtotal := none, shipping := none, tax := none
               , discount := none, total := some 10 } }

/-- Like `reqW` but with no total supplied at all. -/
def reqNoTotal : CreateRequest :=
  { reqW with
    pricing := { subtotal := none, shipping := none, tax := none
               , discount := none, total := none } }

lemma findProduct_id {ps : List Product} {pid : Nat} {p : Product}
    (h : findProduct ps pid = some p) : p.id = pid := by
  have := List.find?_some h
  simpa using this

lemma mem_of_findProduct {ps : List Product} {pid : Nat} {p : Product}
    (h : findProduct ps pid = some p) : p ∈ ps :=
  List.mem_of_find?_eq_some h

lemma saveProduct_valid {ps ps2 : List Product} {p : Product}
    (h : saveProduct ps p = some ps2) : validProduct p := by
  unfold saveProduct at h
  split at h
  · assumption
  · exact absurd h (by simp)

lemma saveProduct_eq {ps ps2 : List Product} {p : Product}
    (h : saveProduct ps p = some ps2) :
    ps2 = ps.map (fun q => if q.id == p.id then p else q) := by
  unfold saveProduct at h
  split at h
  · exact (Option.some.injEq _ _ ▸ h).symm
  · exact absurd h (by simp)

lemma mem_saveProduct {ps ps2 : List Product} {p q : Product}
    (h : saveProduct ps p = some ps2) (hq : q ∈ ps2) : q ∈ ps ∨ q = p := by
  rw [saveProduct_eq h] at hq
  rcases List.mem_map.mp hq with ⟨r, hr, hrq⟩
  by_cases hid : r.id == p.id
  · right; rw [← hrq]; simp [hid]
  · left; rw [← hrq]; simpa [hid] using hr

lemma find_map_replace {α : Type} (key : α → Nat) (p1 : α) (pid : Nat) (l : List α) :
    List.find? (fun x => key x == pid) (l.map (fun q => if key q == key p1 then p1 else q)) =
      if pid = key p1 then (List.find? (fun x => key x == pid) l).map (fun _ => p1)
      else List.find? (fun x => key x == pid) l := by
  induction l with
  | nil => by_cases h : pid = key p1 <;> simp [h]
  | cons q rest ih =>
    simp only [List.map_cons]
    by_cases hq : key q = key p1
    · rw [if_pos (by simp [hq] : (key q == key p1) = true)]
      by_cases hpid : pid = key p1
      · subst hpid
        simp [hq]
      · have h1 : (key p1 == pid) = false := by
          simp only [beq_eq_false_iff_ne, ne_eq]; omega
        have h2 : (key q == pid) = false := by
          simp only [beq_eq_false_iff_ne, ne_eq]; omega
        rw [if_neg hpid]
        simp only [List.find?_cons, h1, h2]
        rw [ih, if_neg hpid]
    · rw [if_neg (by simp [hq])]
      by_cases hqpid : key q = pid
      · have hpid : ¬ pid = key p1 := by omega
        have h2 : (key q == pid) = true := by simp [hqpid]
        rw [if_neg hpid]
        simp only [List.find?_cons, h2]
      · have h2 : (key q == pid) = false := by
          simp only [beq_eq_false_iff_ne, ne_eq]; omega
        simp only [List.find?_cons, h2]
        exact ih

lemma findProduct_save {ps ps2 : List Product} {p1 : Product}
    (h : saveProduct ps p1 = some ps2) (pid : Nat) :
    findProduct ps2 pid =
      if pid = p1.id then (findProduct ps pid).map (fun _ => p1)
      else findProduct ps pid := by
  rw [saveProduct_eq h]
  exact find_map_replace Product.id p1 pid ps

lemma findOrder_id {os : List Order} {oid : Nat} {o : Order}
    (h : findOrder os oid = some o) : o.id = oid := by
  have := List.find?_some h
  simpa using this

lemma findOrder_append_fresh {os : List Order} {o : Order}
    (h : ∀ q ∈ os, q.id ≠ o.id) : findOrder (os ++ [o]) o.id = some o := by
  induction os with
  | nil => simp [findOrder, List.find?]
  | cons q rest ih =>
    have hq : (q.id == o.id) = false := by
      simp only [beq_eq_false_iff_ne, ne_eq]
      exact h q (by simp)
    simp only [findOrder, List.cons_append, List.find?, hq]
    exact ih (fun r hr => h r (by simp [hr]))

lemma genProbe_exhaust (ex : String → Bool) (cnd : Nat → String) (fb : String) :
    ∀ fuel c, 101 ≤ fuel + c → 1 ≤ c → c ≤ 100 →
      (∀ k, c ≤ k → k ≤ 100 → ex (cnd k) = true) →
      genProbe ex cnd fb fuel c = fb := by
  intro fuel
  induction fuel with
  | zero => intro c h1 _ h3 _; omega
  | succ f ih =>
    intro c _ h2 h3 hall
    simp only [genProbe, hall c le_rfl h3, if_true]
    by_cases hc : c + 1 > 100
    · rw [if_pos hc]
    · rw [if_neg hc]
      exact ih (c + 1) (by omega) (by omega) (by omega)
        (fun k hk1 hk2 => hall k (by omega) hk2)

lemma genProbe_finds (ex : String → Bool) (cnd : Nat → String) (fb : String) :
    ∀ fuel c k, 101 ≤ fuel + c → 1 ≤ c → c ≤ k → k ≤ 100 →
      ex (cnd k) = false → (∀ j, c ≤ j → j < k → ex (cnd j) = true) →
      genProbe ex cnd fb fuel c = cnd k := by
  intro fuel
  induction fuel with
  | zero => intro c k h1 _ h3 h4 _ _; omega
  | succ f ih =>
    intro c k _ h2 h3 h4 hk hbusy
    by_cases hck : c = k
    · subst hck
      simp [genProbe, hk]
    · have hexc : ex (cnd c) = true := hbusy c le_rfl (by omega)
      simp only [genProbe, hexc, if_true]
      rw [if_neg (by omega : ¬ c + 1 > 100)]
      exact ih (c + 1) k (by omega) (by omega) (by omega) h4 hk
        (fun j hj1 hj2 => hbusy j (by omega) hj2)

lemma qtySum_zero_of_not_refs : ∀ {items : List ReqItem} {pid : Nat},
    ¬ refs items pid → qtySum items pid = 0 := by
  intro items
  induction items with
  | nil => intro pid _; rfl
  | cons it rest ih =>
    intro pid h
    have h1 : ¬ it.product = some pid := fun he => h ⟨it, by simp, he⟩
    have h2 : ¬ refs rest pid := by
      rintro ⟨x, hx, he⟩
      exact h ⟨x, by simp [hx], he⟩
    simp [qtySum, h1, ih h2]

lemma decTrans_congr {l1 l2 : List ReqItem} {pid : Nat}
    (h : qtySum l1 pid = qtySum l2 pid) (p : Product) :
    decTrans l1 pid p = decTrans l2 pid p := by
  unfold decTrans
  rw [h]

lemma decTrans_eq_self {items : List ReqItem} {pid : Nat}
    (h : qtySum items pid = 0) (p : Product) : decTrans items pid p = p := by
  cases p with
  | mk idv namev pricev imagesv stockv salesv activev =>
    cases stockv with
    | mk qv trv =>
      cases salesv with
      | mk cv rv =>
        unfold decTrans
        split
        · simp [h]
        · rfl

lemma decTrans_untracked {items : List ReqItem} {pid : Nat} {p : Product}
    (h : ¬ p.stock.trackInventory = true) : decTrans items pid p = p := by
  unfold decTrans
  rw [if_neg h]

lemma decTrans_track (items : List ReqItem) (pid : Nat) (p : Product) :
    (decTrans items pid p).stock.trackInventory = p.stock.trackInventory := by
  unfold decTrans
  split <;> rfl

lemma decTrans_step {it : ReqItem} {rest : List ReqItem} {pid : Nat} {p : Product}
    (htr : p.stock.trackInventory = true) (hit : it.product = some pid) :
    decTrans rest pid
      { p with
        stock := { p.stock with quantity := p.stock.quantity - it.quantity }
        sales := { count := p.sales.count + it.quantity
                 , revenue := p.sales.revenue + p.price * it.quantity } }
      = decTrans (it :: rest) pid p := by
  cases p with
  | mk idv namev pricev imagesv stockv salesv activev =>
    cases stockv with
    | mk qv trv =>
      cases salesv with
      | mk cv rv =>
        simp only at htr
        subst htr
        simp only [decTrans, qtySum, hit, if_true, if_pos, Product.mk.injEq,
          Stock.mk.injEq, Sales.mk.injEq, true_and, and_true]
        refine ⟨by omega, by omega, ?_⟩
        ring

lemma findOrder_saveOrder (os : List Order) (o1 : Order) (oid : Nat) :
    findOrder (saveOrder os o1) oid =
      if oid = o1.id then (findOrder os oid).map (fun _ => o1)
      else findOrder os oid := by
  unfold saveOrder findOrder
  exact find_map_replace Order.id o1 oid os

lemma oQtySum_zero_of_not_mem : ∀ {items : List OrderItem} {pid : Nat},
    (∀ it ∈ items, ¬ it.product = pid) → oQtySum items pid = 0 := by
  intro items
  induction items with
  | nil => intro pid _; rfl
  | cons it rest ih =>
    intro pid h
    have h1 : ¬ it.product = pid := h it (by simp)
    simp [oQtySum, h1, ih (fun x hx => h x (by simp [hx]))]

lemma oRevSum_zero_of_not_mem : ∀ {items : List OrderItem} {pid : Nat},
    (∀ it ∈ items, ¬ it.product = pid) → oRevSum items pid = 0 := by
  intro items
  induction items with
  | nil => intro pid _; rfl
  | cons it rest ih =>
    intro pid h
    have h1 : ¬ it.product = pid := h it (by simp)
    simp [oRevSum, h1, ih (fun x hx => h x (by simp [hx]))]

lemma resTrans_congr {l1 l2 : List OrderItem} {pid : Nat}
    (hq : oQtySum l1 pid = oQtySum l2 pid) (hr : oRevSum l1 pid = oRevSum l2 pid)
    (p : Product) : resTrans l1 pid p = resTrans l2 pid p := by
  unfold resTrans
  rw [hq, hr]

lemma resTrans_eq_self {items : List OrderItem} {pid : Nat}
    (hq : oQtySum items pid = 0) (hr : oRevSum items pid = 0) (p : Product) :
    resTrans items pid p = p := by
  cases p with
  | mk idv namev pricev imagesv stockv salesv activev =>
    cases stockv with
    | mk qv trv =>
      cases salesv with
      | mk cv rv =>
        unfold resTrans
        split
        · simp [hq, hr]
        · rfl

lemma resTrans_untracked {items : List OrderItem} {pid : Nat} {p : Product}
    (h : ¬ p.stock.trackInventory = true) : resTrans items pid p = p := by
  unfold resTrans
  rw [if_neg h]

lemma resTrans_track (items : List OrderItem) (pid : Nat) (p : Product) :
    (resTrans items pid p).stock.trackInventory = p.stock.trackInventory := by
  unfold resTrans
  split <;> rfl

lemma resTrans_step {it : OrderItem} {rest : List OrderItem} {pid : Nat} {p : Product}
    (htr : p.stock.trackInventory = true) (hit : it.product = pid) :
    resTrans rest pid
      { p with
        stock := { p.stock with quantity := p.stock.quantity + it.quantity }
        sales := { count := p.sales.count - it.quantity
                 , revenue := p.sales.revenue - it.price * it.quantity } }
      = resTrans (it :: rest) pid p := by
  cases p with
  | mk idv namev pricev imagesv stockv salesv activev =>
    cases stockv with
    | mk qv trv =>
      cases salesv with
      | mk cv rv =>
        simp only at htr
        subst htr
        simp only [resTrans, oQtySum, oRevSum, hit, if_true, Product.mk.injEq,
          Stock.mk.injEq, Sales.mk.injEq, true_and, and_true]
        refine ⟨by omega, by omega, ?_⟩
        ring

lemma resTrans_decTrans {ritems : List ReqItem} {oitems : List OrderItem} {pid : Nat}
    {p : Product} (hq : oQtySum oitems pid = qtySum ritems pid)
    (hr : oRevSum oitems pid = p.price * qtySum ritems pid) :
    resTrans oitems pid (decTrans ritems pid p) = p := by
  cases p with
  | mk idv namev pricev imagesv stockv salesv activev =>
    cases stockv with
    | mk qv trv =>
      cases salesv with
      | mk cv rv =>
        simp only at hr
        by_cases htr : trv = true
        · subst htr
          simp only [decTrans, resTrans, if_true, Product.mk.injEq,
            Stock.mk.injEq, Sales.mk.injEq, true_and, and_true]
          rw [hq, hr]
          refine ⟨by omega, by omega, by ring⟩
        · rw [decTrans_untracked htr, resTrans_untracked htr]

lemma decrementLoop_ok : ∀ (items : List ReqItem) (ps ps2 : List Product),
    decrementLoop items ps = (ps2, true) →
    (∀ pid, findProduct ps2 pid = (findProduct ps pid).map (decTrans items pid)) ∧
    (∀ pid p2, findProduct ps2 pid = some p2 → p2.stock.trackInventory = true →
      refs items pid → validProduct p2) := by
  intro items
  induction items with
  | nil =>
    intro ps ps2 h
    simp only [decrementLoop, Prod.mk.injEq] at h
    obtain ⟨h1, -⟩ := h
    subst h1
    constructor
    · intro pid
      cases hf : findProduct ps pid with
      | none => simp
      | some p => simp [decTrans_eq_self (show qtySum [] pid = 0 from rfl)]
    · rintro pid p2 _ _ ⟨x, hx, -⟩
      exact absurd hx (List.not_mem_nil x)
  | cons it rest ih =>
    intro ps ps2 h
    simp only [decrementLoop] at h
    rcases hP : it.product with _ | pidh
    · rw [hP] at h
      simp only [Option.none_bind] at h
      obtain ⟨hpt, hval⟩ := ih ps ps2 h
      constructor
      · intro pid
        have hsum : qtySum (it :: rest) pid = qtySum rest pid := by
          simp [qtySum, hP]
        rw [hpt pid, funext (decTrans_congr hsum)]
      · rintro pid p2 hf2 htr2 ⟨x, hx, hxp⟩
        rcases List.mem_cons.mp hx with rfl | hx'
        · rw [hP] at hxp
          exact absurd hxp (by simp)
        · exact hval pid p2 hf2 htr2 ⟨x, hx', hxp⟩
    · rw [hP] at h
      simp only [Option.some_bind] at h
      rcases hb : findProduct ps pidh with _ | p
      · simp only [hb] at h
        obtain ⟨hpt, hval⟩ := ih ps ps2 h
        constructor
        · intro pid
          by_cases hpe : pid = pidh
          · subst hpe
            rw [hpt pid, hb]
            simp
          · have hsum : qtySum (it :: rest) pid = qtySum rest pid := by
              simp [qtySum, hP]
              intro he
              exact absurd he.symm hpe
            rw [hpt pid, funext (decTrans_congr hsum)]
        · rintro pid p2 hf2 htr2 ⟨x, hx, hxp⟩
          rcases List.mem_cons.mp hx with rfl | hx'
          · rw [hP] at hxp
            have : pidh = pid := by simpa using hxp
            subst this
            rw [hpt pidh, hb] at hf2
            exact absurd hf2 (by simp)
          · exact hval pid p2 hf2 htr2 ⟨x, hx', hxp⟩
      · simp only [hb] at h
        have hpId : p.id = pidh := findProduct_id hb
        by_cases htr : p.stock.trackInventory = true
        · rw [if_pos htr] at h
          rcases hs : saveProduct ps
              { p with
                stock := { p.stock with quantity := p.stock.quantity - it.quantity }
                sales := { count := p.sales.count + it.quantity
                         , revenue := p.sales.revenue + p.price * it.quantity } }
            with _ | ps1
          · simp only [hs] at h
            simp at h
          · simp only [hs] at h
            obtain ⟨hpt, hval⟩ := ih ps1 ps2 h
            constructor
            · intro pid
              by_cases hpe : pid = pidh
              · subst hpe
                rw [hpt pid, findProduct_save hs pid, if_pos hpId.symm, hb]
                simp only [Option.map_some']
                exact congrArg some (decTrans_step htr hP)
              · rw [hpt pid, findProduct_save hs pid, if_neg (by simpa [hpId] using hpe)]
                have hsum : qtySum (it :: rest) pid = qtySum rest pid := by
                  simp [qtySum, hP]
                  intro he
                  exact absurd he.symm hpe
                rw [funext (decTrans_congr hsum)]
            · rintro pid p2 hf2 htr2 ⟨x, hx, hxp⟩
              by_cases hrr : refs rest pid
              · exact hval pid p2 hf2 htr2 hrr
              · rcases List.mem_cons.mp hx with rfl | hx'
                · rw [hP] at hxp
                  have hpe : pidh = pid := by simpa using hxp
                  subst hpe
                  have hfind := hpt pidh
                  rw [findProduct_save hs pidh, if_pos hpId.symm, hb] at hfind
                  simp only [Option.map_some'] at hfind
                  rw [decTrans_eq_self (qtySum_zero_of_not_refs hrr)] at hfind
                  rw [hf2] at hfind
                  have hp2 := (Option.some.injEq _ _).mp hfind
                  rw [hp2]
                  exact saveProduct_valid hs
                · exact absurd ⟨x, hx', hxp⟩ hrr
        · rw [if_neg htr] at h
          obtain ⟨hpt, hval⟩ := ih ps ps2 h
          constructor
          · intro pid
            by_cases hpe : pid = pidh
            · subst hpe
              rw [hpt pid, hb]
              simp only [Option.map_some']
              rw [decTrans_untracked htr, decTrans_untracked htr]
            · have hsum : qtySum (it :: rest) pid = qtySum rest pid := by
                simp [qtySum, hP]
                intro he
                exact absurd he.symm hpe
              rw [hpt pid, funext (decTrans_congr hsum)]
          · rintro pid p2 hf2 htr2 ⟨x, hx, hxp⟩
            rcases List.mem_cons.mp hx with rfl | hx'
            · rw [hP] at hxp
              have hpe : pidh = pid := by simpa using hxp
              subst hpe
              rw [hpt pidh, hb] at hf2
              simp only [Option.map_some'] at hf2
              have hp2 := (Option.some.injEq _ _).mp hf2
              rw [← hp2] at htr2
              rw [decTrans_track] at htr2
              exact absurd htr2 htr
            · exact hval pid p2 hf2 htr2 ⟨x, hx', hxp⟩

lemma restoreLoop_ok : ∀ (items : List OrderItem) (ps ps2 : List Product),
    restoreLoop items ps = (ps2, true) →
    ∀ pid, findProduct ps2 pid = (findProduct ps pid).map (resTrans items pid) := by
  intro items
  induction items with
  | nil =>
    intro ps ps2 h
    simp only [restoreLoop, Prod.mk.injEq] at h
    obtain ⟨h1, -⟩ := h
    subst h1
    intro pid
    cases hf : findProduct ps pid with
    | none => simp
    | some p =>
      simp [resTrans_eq_self (show oQtySum [] pid = 0 from rfl)
        (show oRevSum [] pid = 0 from rfl)]
  | cons it rest ih =>
    intro ps ps2 h
    simp only [restoreLoop] at h
    rcases hb : findProduct ps it.product with _ | p
    · simp only [hb] at h
      have hpt := ih ps ps2 h
      intro pid
      by_cases hpe : pid = it.product
      · subst hpe
        rw [hpt it.product, hb]
        simp
      · have hne : ¬ it.product = pid := fun he => hpe he.symm
        have hq : oQtySum (it :: rest) pid = oQtySum rest pid := by
          simp [oQtySum, hne]
        have hr : oRevSum (it :: rest) pid = oRevSum rest pid := by
          simp [oRevSum, hne]
        rw [hpt pid, funext (resTrans_congr hq hr)]
    · simp only [hb] at h
      have hpId : p.id = it.product := findProduct_id hb
      by_cases htr : p.stock.trackInventory = true
      · rw [if_pos htr] at h
        rcases hs : saveProduct ps
            { p with
              stock := { p.stock with quantity := p.stock.quantity + it.quantity }
              sales := { count := p.sales.count - it.quantity
                       , revenue := p.sales.revenue - it.price * it.quantity } }
          with _ | ps1
        · simp only [hs] at h
          simp at h
        · simp only [hs] at h
          have hpt := ih ps1 ps2 h
          intro pid
          by_cases hpe : pid = it.product
          · subst hpe
            rw [hpt it.product, findProduct_save hs it.product, if_pos hpId.symm, hb]
            simp only [Option.map_some']
            exact congrArg some (resTrans_step htr rfl)
          · rw [hpt pid, findProduct_save hs pid, if_neg (by simpa [hpId] using hpe)]
            have hne : ¬ it.product = pid := fun he => hpe he.symm
            have hq : oQtySum (it :: rest) pid = oQtySum rest pid := by
              simp [oQtySum, hne]
            have hr : oRevSum (it :: rest) pid = oRevSum rest pid := by
              simp [oRevSum, hne]
            rw [funext (resTrans_congr hq hr)]
      · rw [if_neg htr] at h
        have hpt := ih ps ps2 h
        intro pid
        by_cases hpe : pid = it.product
        · subst hpe
          rw [hpt it.product, hb]
          simp only [Option.map_some']
          rw [resTrans_untracked htr, resTrans_untracked htr]
        · have hne : ¬ it.product = pid := fun he => hpe he.symm
          have hq : oQtySum (it :: rest) pid = oQtySum rest pid := by
            simp [oQtySum, hne]
          have hr : oRevSum (it :: rest) pid = oRevSum rest pid := by
            simp [oRevSum, hne]
          rw [hpt pid, funext (resTrans_congr hq hr)]

lemma restoreLoop_succeeds : ∀ (items : List OrderItem) (ps : List Product),
    (∀ it ∈ items, 1 ≤ it.quantity) →
    (∀ it ∈ items, ∀ p, findProduct ps it.product = some p →
      p.stock.trackInventory = true → validProduct p) →
    (restoreLoop items ps).2 = true := by
  intro items
  induction items with
  | nil => intro ps _ _; rfl
  | cons it rest ih =>
    intro ps hq hp
    simp only [restoreLoop]
    rcases hb : findProduct ps it.product with _ | p
    · simp only [hb]
      exact ih ps (fun x hx => hq x (by simp [hx])) (fun x hx => hp x (by simp [hx]))
    · simp only [hb]
      by_cases htr : p.stock.trackInventory = true
      · rw [if_pos htr]
        have hvp : validProduct p := hp it (by simp) p hb htr
        have hone : 1 ≤ it.quantity := hq it (by simp)
        have hvu : validProduct
            { p with
              stock := { p.stock with quantity := p.stock.quantity + it.quantity }
              sales := { count := p.sales.count - it.quantity
                       , revenue := p.sales.revenue - it.price * it.quantity } } := by
          refine ⟨hvp.1, ?_⟩
          have h2 := hvp.2
          simp only [validProduct] at h2 ⊢
          omega
        have hsome : (saveProduct ps
            { p with
              stock := { p.stock with quantity := p.stock.quantity + it.quantity }
              sales := { count := p.sales.count - it.quantity
                       , revenue := p.sales.revenue - it.price * it.quantity } }).isSome := by
          unfold saveProduct
          rw [if_pos hvu]
          rfl
        rcases hs : saveProduct ps
            { p with
              stock := { p.stock with quantity := p.stock.quantity + it.quantity }
              sales := { count := p.sales.count - it.quantity
                       , revenue := p.sales.revenue - it.price * it.quantity } }
          with _ | ps1
        · rw [hs] at hsome
          simp at hsome
        · simp only [hs]
          apply ih ps1 (fun x hx => hq x (by simp [hx]))
          intro x hx p' hfp' htr'
          rw [findProduct_save hs x.product] at hfp'
          by_cases hpe : x.product = p.id
          · rw [if_pos hpe] at hfp'
            cases hfind : findProduct ps x.product with
            | none =>
              rw [hfind] at hfp'
              simp at hfp'
            | some r =>
              rw [hfind] at hfp'
              simp only [Option.map_some'] at hfp'
              have := (Option.some.injEq _ _).mp hfp'
              rw [← this]
              exact hvu
          · rw [if_neg hpe] at hfp'
            exact hp x (by simp [hx]) p' hfp' htr'
      · rw [if_neg htr]
        exact ih ps (fun x hx => hq x (by simp [hx])) (fun x hx => hp x (by simp [hx]))

lemma decrementLoop_mem : ∀ (items : List ReqItem) (ps : List Product) (q : Product),
    q ∈ (decrementLoop items ps).1 → q ∈ ps ∨ validProduct q := by
  intro items
  induction items with
  | nil => intro ps q hq; exact Or.inl hq
  | cons it rest ih =>
    intro ps q hq
    simp only [decrementLoop] at hq
    rcases hb : it.product.bind (findProduct ps) with _ | p
    · simp only [hb] at hq
      exact ih ps q hq
    · simp only [hb] at hq
      by_cases htr : p.stock.trackInventory = true
      · rw [if_pos htr] at hq
        rcases hs : saveProduct ps
            { p with
              stock := { p.stock with quantity := p.stock.quantity - it.quantity }
              sales := { count := p.sales.count + it.quantity
                       , revenue := p.sales.revenue + p.price * it.quantity } }
          with _ | ps1
        · simp only [hs] at hq
          exact Or.inl hq
        · simp only [hs] at hq
          rcases ih ps1 q hq with hmem | hval
          · rcases mem_saveProduct hs hmem with hmem2 | he
            · exact Or.inl hmem2
            · rw [he]
              exact Or.inr (saveProduct_valid hs)
          · exact Or.inr hval
      · rw [if_neg htr] at hq
        exact ih ps q hq

lemma restoreLoop_mem : ∀ (items : List OrderItem) (ps : List Product) (q : Product),
    q ∈ (restoreLoop items ps).1 → q ∈ ps ∨ validProduct q := by
  intro items
  induction items with
  | nil => intro ps q hq; exact Or.inl hq
  | cons it rest ih =>
    intro ps q hq
    simp only [restoreLoop] at hq
    rcases hb : findProduct ps it.product with _ | p
    · simp only [hb] at hq
      exact ih ps q hq
    · simp only [hb] at hq
      by_cases htr : p.stock.trackInventory = true
      · rw [if_pos htr] at hq
        rcases hs : saveProduct ps
            { p with
              stock := { p.stock with quantity := p.stock.quantity + it.quantity }
              sales := { count := p.sales.count - it.quantity
                       , revenue := p.sales.revenue - it.price * it.quantity } }
          with _ | ps1
        · simp only [hs] at hq
          exact Or.inl hq
        · simp only [hs] at hq
          rcases ih ps1 q hq with hmem | hval
          · rcases mem_saveProduct hs hmem with hmem2 | he
            · exact Or.inl hmem2
            · rw [he]
              exact Or.inr (saveProduct_valid hs)
          · exact Or.inr hval
      · rw [if_neg htr] at hq
        exact ih ps q hq

lemma processItems_ok : ∀ (items : List ReqItem) (t : Bool) (ps : List Product)
    (ois : List OrderItem) (sub : Int),
    processItems t ps items = Except.ok (ois, sub) →
    (∀ pid, oQtySum ois pid = qtySum items pid) ∧
    (∀ pid pfound, findProduct ps pid = some pfound →
        oRevSum ois pid = pfound.price * qtySum items pid) ∧
    (∀ oit ∈ ois, ∃ rit ∈ items, rit.product = some oit.product) := by
  intro items
  induction items with
  | nil =>
    intro t ps ois sub h
    simp only [processItems, Except.ok.injEq, Prod.mk.injEq] at h
    obtain ⟨h1, h2⟩ := h
    subst h1
    refine ⟨fun pid => rfl, fun pid pfound _ => by simp [oRevSum, qtySum], ?_⟩
    rintro oit hoit
    exact absurd hoit (List.not_mem_nil oit)
  | cons it rest ih =>
    intro t ps ois sub h
    simp only [processItems] at h
    rcases hP : it.product with _ | pid0
    · rw [hP] at h
      simp at h
    · simp only [hP] at h
      rcases hb : findProduct ps pid0 with _ | p
      · simp only [hb] at h
        simp at h
      · simp only [hb] at h
        by_cases hact : p.isActive = false
        · rw [if_pos hact] at h
          simp at h
        · rw [if_neg hact] at h
          by_cases hstk : ¬ t = true ∧ p.stock.trackInventory = true ∧
              p.stock.quantity < it.quantity
          · rw [if_pos hstk] at h
            simp at h
          · rw [if_neg hstk] at h
            rcases hrec : processItems t ps rest with e1 | pr
            · simp only [hrec] at h
              simp at h
            · obtain ⟨ois1, sub1⟩ := pr
              simp only [hrec, Except.ok.injEq, Prod.mk.injEq] at h
              obtain ⟨h1, h2⟩ := h
              subst h1
              obtain ⟨ihq, ihr, ihm⟩ := ih t ps ois1 sub1 hrec
              have hpId : p.id = pid0 := findProduct_id hb
              refine ⟨?_, ?_, ?_⟩
              · intro pid
                simp only [oQtySum, qtySum, hP, hpId, ihq pid]
                by_cases hpe : pid0 = pid
                · simp [hpe]
                · simp [hpe]
              · intro pid pfound hfind
                simp only [oRevSum, qtySum, hP, hpId]
                by_cases hpe : pid0 = pid
                · subst hpe
                  rw [hb] at hfind
                  have hep : p = pfound := by simpa using hfind
                  subst hep
                  rw [ihr pid0 p hb]
                  simp only [if_true]
                  ring
                · have hne1 : ¬ (some pid0 = some pid) := by simpa using hpe
                  simp only [if_neg hpe, if_neg hne1]
                  rw [ihr pid pfound hfind]
                  ring
              · intro oit hoit
                rcases List.mem_cons.mp hoit with he | hrest
                · refine ⟨it, by simp, ?_⟩
                  rw [hP, he]
                  simp [hpId]
                · rcases ihm oit hrest with ⟨rit, hr1, hr2⟩
                  exact ⟨rit, by simp [hr1], hr2⟩


lemma createOrder_cases (env : Env) (u : Nat) (req : CreateRequest) (s : St) :
    (∃ e, createOrder env u req s = (CreateOutcome.rejected e, s)) ∨
    createOrder env u req s = (CreateOutcome.createFailed, s) ∨
    (∃ ois sub,
      processItems (req.isTest.getD false) s.products req.items = Except.ok (ois, sub) ∧
      requestValid req = true ∧
      orderValid (mkOrder env u req s ois sub) ∧
      orderNumberExists s.orders (mkOrder env u req s ois sub).orderNumber = false ∧
      createOrder env u req s =
        ((if (decrementLoop req.items s.products).2 = true
          then CreateOutcome.success s.nextOrderId
          else CreateOutcome.stockSaveFailed s.nextOrderId),
         { products := (decrementLoop req.items s.products).1
         , orders := s.orders ++ [mkOrder env u req s ois sub]
         , nextOrderId := s.nextOrderId + 1 })) := by
  unfold createOrder
  by_cases h1 : requestValid req = false
  · rw [if_pos h1]
    exact Or.inl ⟨CreateError.validation, rfl⟩
  · rw [if_neg h1]
    by_cases h2 : invalidMethod req = true
    · rw [if_pos h2]
      exact Or.inl ⟨CreateError.invalidPaymentMethod, rfl⟩
    · rw [if_neg h2]
      by_cases h3 : missingBankTxn req = true
      · rw [if_pos h3]
        exact Or.inl ⟨CreateError.missingTransactionId, rfl⟩
      · rw [if_neg h3]
        rcases hpi : processItems (req.isTest.getD false) s.products req.items
          with e1 | ⟨ois, sub⟩
        · simp only [hpi]
          exact Or.inl ⟨e1, rfl⟩
        · simp only [hpi]
          by_cases h4 : orderValid (mkOrder env u req s ois sub) ∧
              orderNumberExists s.orders (mkOrder env u req s ois sub).orderNumber = false
          · rw [if_pos h4]
            refine Or.inr (Or.inr ⟨ois, sub, rfl, ?_, h4.1, h4.2, ?_⟩)
            · revert h1
              cases requestValid req <;> simp
            · by_cases h5 : (decrementLoop req.items s.products).2 = true
              · rw [if_pos h5, if_pos h5]
                rfl
              · rw [if_neg h5, if_neg h5]
                rfl
          · rw [if_neg h4]
            exact Or.inr (Or.inl rfl)

lemma createOrder_rejected_state {env : Env} {u : Nat} {req : CreateRequest} {s : St}
    {e : CreateError} (h : (createOrder env u req s).1 = CreateOutcome.rejected e) :
    (createOrder env u req s).2 = s := by
  rcases createOrder_cases env u req s with ⟨e1, he⟩ | he | ⟨ois, sub, _, _, _, _, he⟩
  · rw [he]
  · rw [he]
  · rw [he] at h ⊢
    by_cases h5 : (decrementLoop req.items s.products).2 = true
    · rw [if_pos h5] at h
      simp at h
    · rw [if_neg h5] at h
      simp at h

lemma createOrder_success_inv {env : Env} {u : Nat} {req : CreateRequest} {s : St}
    {oid : Nat} (h : (createOrder env u req s).1 = CreateOutcome.success oid) :
    oid = s.nextOrderId ∧
    ∃ ois sub,
      processItems (req.isTest.getD false) s.products req.items = Except.ok (ois, sub) ∧
      orderValid (mkOrder env u req s ois sub) ∧
      decrementLoop req.items s.products = ((createOrder env u req s).2.products, true) ∧
      (createOrder env u req s).2.orders = s.orders ++ [mkOrder env u req s ois sub] ∧
      (createOrder env u req s).2.nextOrderId = s.nextOrderId + 1 := by
  rcases createOrder_cases env u req s with ⟨e1, he⟩ | he | ⟨ois, sub, hpi, hrv, hov, hex, he⟩
  · rw [he] at h
    simp at h
  · rw [he] at h
    simp at h
  · by_cases h5 : (decrementLoop req.items s.products).2 = true
    · rw [he] at h ⊢
      rw [if_pos h5] at h
      simp only at h
      constructor
      · have h6 : s.nextOrderId = oid := by injection h
        exact h6.symm
      · refine ⟨ois, sub, hpi, hov, ?_, rfl, rfl⟩
        simp only []
        rw [← h5]
    · rw [he] at h
      rw [if_neg h5] at h
      simp at h


lemma withTracking_items (o : Order) (tn : Option String) (ed : Option Nat) :
    (withTracking o tn ed).items = o.items := by
  unfold withTracking
  cases jsOrStr tn <;> cases ed <;> rfl

lemma withTracking_status (o : Order) (tn : Option String) (ed : Option Nat) :
    (withTracking o tn ed).status = o.status := by
  unfold withTracking
  cases jsOrStr tn <;> cases ed <;> rfl

lemma withTracking_cancelledAt (o : Order) (tn : Option String) (ed : Option Nat) :
    (withTracking o tn ed).cancelledAt = o.cancelledAt := by
  unfold withTracking
  cases jsOrStr tn <;> cases ed <;> rfl

lemma withTracking_id (o : Order) (tn : Option String) (ed : Option Nat) :
    (withTracking o tn ed).id = o.id := by
  unfold withTracking
  cases jsOrStr tn <;> cases ed <;> rfl

lemma applyStatus_items (env : Env) (st : OrderStatus) (o0 : Order) :
    (applyStatus env st o0).items = o0.items := by
  dsimp only [applyStatus]
  split <;> split <;> rfl

lemma applyStatus_cancelledAt (env : Env) (st : OrderStatus) (o0 : Order) :
    (applyStatus env st o0).cancelledAt = o0.cancelledAt := by
  dsimp only [applyStatus]
  split <;> split <;> rfl

lemma applyStatus_status (env : Env) (st : OrderStatus) (o0 : Order) :
    (applyStatus env st o0).status = st := by
  dsimp only [applyStatus]
  split <;> split <;> rfl

lemma applyStatus_id (env : Env) (st : OrderStatus) (o0 : Order) :
    (applyStatus env st o0).id = o0.id := by
  dsimp only [applyStatus]
  split <;> split <;> rfl

lemma updateStatus_cancel_run (env : Env) (tn : Option String) (ed : Option Nat)
    {oid : Nat} {statusStr : String} {s : St} {o0 : Order}
    (hparse : parseStatus statusStr = some OrderStatus.cancelled)
    (hfind : findOrder s.orders oid = some o0)
    (hcan : o0.cancelledAt = none)
    (hok : (restoreLoop o0.items s.products).2 = true)
    (hov : orderValid o0) :
    updateStatus env oid statusStr tn ed s =
      (UpdateOutcome.updated oid,
       { s with
         products := (restoreLoop o0.items s.products).1
         , orders := saveOrder s.orders
             (withTracking { applyStatus env OrderStatus.cancelled o0 with
                             cancelledAt := some env.now } tn ed) }) := by
  unfold updateStatus
  simp only [hparse, hfind, applyStatus_cancelledAt, applyStatus_items, hcan, hok,
    and_true, true_and, if_true]
  split
  · rfl
  · next h =>
    exfalso
    apply h
    unfold orderValid at hov ⊢
    rw [withTracking_items]
    exact hov

lemma updateStatus_else_run (env : Env) (tn : Option String) (ed : Option Nat)
    {oid : Nat} {statusStr : String} {st : OrderStatus} {s : St} {o0 : Order}
    (hparse : parseStatus statusStr = some st)
    (hfind : findOrder s.orders oid = some o0)
    (hnc : ¬ (st = OrderStatus.cancelled ∧ (applyStatus env st o0).cancelledAt = none))
    (hov : orderValid o0) :
    updateStatus env oid statusStr tn ed s =
      (UpdateOutcome.updated oid,
       { s with orders := saveOrder s.orders (withTracking (applyStatus env st o0) tn ed) }) := by
  unfold updateStatus
  simp only [hparse, hfind]
  rw [if_neg hnc]
  have hov5 : orderValid (withTracking (applyStatus env st o0) tn ed) := by
    unfold orderValid at hov ⊢
    rw [withTracking_items, applyStatus_items]
    exact hov
  rw [if_pos hov5]


lemma mkOrder_items (env : Env) (u : Nat) (req : CreateRequest) (s : St)
    (ois : List OrderItem) (sub : Int) :
    (mkOrder env u req s ois sub).items = ois := rfl

lemma mkOrder_id (env : Env) (u : Nat) (req : CreateRequest) (s : St)
    (ois : List OrderItem) (sub : Int) :
    (mkOrder env u req s ois sub).id = s.nextOrderId := rfl

/-- C8: a status-update request carrying a status value outside
pending/confirmed/processing/shipped/delivered/cancelled is rejected with the
InvalidStatus error and leaves the store — the order and every other record —
unchanged. -/
theorem C8_invalid_status_rejected (env : Env) (oid : Nat) (statusStr : String)
    (tn : Option String) (ed : Option Nat) (s : St)
    (h : parseStatus statusStr = none) :
    updateStatus env oid statusStr tn ed s = (UpdateOutcome.invalidStatus, s) := by
  unfold updateStatus
  simp only [h]

/-- Witness for C8 at the unrecognized status string "refunded". -/
theorem C8_invalid_status_rejected_witness :
    updateStatus envW 1 "refunded" none none sOrd = (UpdateOutcome.invalidStatus, sOrd) :=
  C8_invalid_status_rejected envW 1 "refunded" none none sOrd (by decide)

/-- C10: a caller-supplied pricing component equal to 0 is treated as absent:
for each of the five components, supplying 0 persists the same pricing record
as omitting the component, and a supplied total of 0 yields the computed
item-sum subtotal + shipping + tax − discount (`finalPricing` is exactly the
record the handler persists on the order). -/
theorem C10_zero_component_absent (pin : PricingInput) (st : Int) :
    finalPricing { pin with subtotal := some 0 } st
      = finalPricing { pin with subtotal := none } st ∧
    finalPricing { pin with shipping := some 0 } st
      = finalPricing { pin with shipping := none } st ∧
    finalPricing { pin with tax := some 0 } st
      = finalPricing { pin with tax := none } st ∧
    finalPricing { pin with discount := some 0 } st
      = finalPricing { pin with discount := none } st ∧
    finalPricing { pin with total := some 0 } st
      = finalPricing { pin with total := none } st ∧
    (finalPricing { pin with total := some 0 } st).total
      = st + jsOr pin.shipping 0 + jsOr pin.tax 0 - jsOr pin.discount 0 := by
  unfold finalPricing jsOr
  refine ⟨?_, ?_, ?_, ?_, ?_, ?_⟩ <;> simp

/-- C3 counterexample: when every probed candidate already exists, the
generator returns PREFIX-YYYYMMDD-<clock tick> — no random suffix is combined
in, contrary to the claimed exhaustion fallback (modelled by
`generateOrderNumberClaimed`). -/
theorem C3_counterexample :
    generateOrderNumber false 0 (fun _ => true) "20260101" 999 = "ORD-20260101-999" ∧
    generateOrderNumberClaimed false 0 (fun _ => true) "20260101" 999 "x7k2p9"
      = "ORD-20260101-999-x7k2p9" ∧
    generateOrderNumber false 0 (fun _ => true) "20260101" 999
      ≠ generateOrderNumberClaimed false 0 (fun _ => true) "20260101" 999 "x7k2p9" := by
  refine ⟨?_, ?_, ?_⟩ <;> decide

/-- C3 (amended): the generator derives candidates
PREFIX-YYYYMMDD-pad5(count+k) from the order count, probes k = 1..100 and
returns the first free candidate; when all 100 exist it falls back to
PREFIX-YYYYMMDD-<millisecond clock tick> (without a random suffix — the
random-suffix fallback belongs to the error path only).  PREFIX is TEST for
test orders and ORD otherwise. -/
theorem C3_generator_amended :
    (∀ (isTest : Bool) (count : Nat) (ex : String → Bool) (dateStr : String)
        (tickMs : Nat),
      (∀ k, 1 ≤ k → k ≤ 100 →
        ex (candidate (if isTest then "TEST" else "ORD") dateStr (count + k)) = true) →
      generateOrderNumber isTest count ex dateStr tickMs
        = (if isTest then "TEST" else "ORD") ++ "-" ++ dateStr ++ "-" ++ toString tickMs) ∧
    (∀ (isTest : Bool) (count : Nat) (ex : String → Bool) (dateStr : String)
        (tickMs : Nat) (k : Nat), 1 ≤ k → k ≤ 100 →
      ex (candidate (if isTest then "TEST" else "ORD") dateStr (count + k)) = false →
      (∀ j, 1 ≤ j → j < k →
        ex (candidate (if isTest then "TEST" else "ORD") dateStr (count + j)) = true) →
      generateOrderNumber isTest count ex dateStr tickMs
        = candidate (if isTest then "TEST" else "ORD") dateStr (count + k)) := by
  constructor
  · intro isTest count ex dateStr tickMs hall
    exact genProbe_exhaust ex _ _ 101 1 (by omega) le_rfl (by omega)
      (fun k hk1 hk2 => hall k hk1 hk2)
  · intro isTest count ex dateStr tickMs k h1 h2 hfree hbusy
    exact genProbe_finds ex _ _ 101 1 k (by omega) le_rfl h1 h2 hfree
      (fun j hj1 hj2 => hbusy j hj1 hj2)

/-- Witness for C3 (amended): exhaustion yields the tick fallback; an empty
store yields the first count-derived candidate. -/
theorem C3_generator_amended_witness :
    generateOrderNumber false 0 (fun _ => true) "20260102" 777 = "ORD-20260102-777" ∧
    generateOrderNumber false 3 (fun _ => false) "20260102" 777 = "ORD-20260102-00004" := by
  constructor
  · exact (C3_generator_amended.1 false 0 (fun _ => true) "20260102" 777
      (fun k h1 h2 => rfl)).trans (by decide)
  · exact (C3_generator_amended.2 false 3 (fun _ => false) "20260102" 777 1 le_rfl
      (by omega) rfl (fun j hj1 hj2 => absurd hj1 (by omega))).trans (by decide)


/-- C6 counterexample: with item sum 10 and supplied shipping 2, a supplied
total of 0 is not trusted as-is — the persisted total is the computed 12 —
and a request with no total at all is rejected by validation instead of
receiving the default. -/
theorem C6_counterexample :
    reqW.pricing.total = some 0 ∧
    ((createOrder envW 4 reqW sW).2.orders.head?).map (fun o => o.pricing.total)
      = some 12 ∧
    ¬ ((createOrder envW 4 reqW sW).2.orders.head?).map (fun o => o.pricing.total)
      = some 0 ∧
    (createOrder envW 4 reqNoTotal sW).1
      = CreateOutcome.rejected CreateError.validation := by
  refine ⟨rfl, ?_, ?_, ?_⟩ <;> decide

/-- C6 (amended): shipping, tax, and discount default to 0 when absent; a
caller-supplied nonzero total is trusted as-is with no reconciliation; a
supplied total of 0 (the only falsy value the validator admits) is replaced by
the item-sum subtotal + shipping + tax − discount; and a request without a
total is rejected by validation, so no order is created from it. -/
theorem C6_pricing_amended :
    (∀ pin st, pin.shipping = none → (finalPricing pin st).shipping = 0) ∧
    (∀ pin st, pin.tax = none → (finalPricing pin st).tax = 0) ∧
    (∀ pin st, pin.discount = none → (finalPricing pin st).discount = 0) ∧
    (∀ pin st t, pin.total = some t → ¬ t = 0 → (finalPricing pin st).total = t) ∧
    (∀ pin st, pin.total = some 0 → (finalPricing pin st).total
       = st + jsOr pin.shipping 0 + jsOr pin.tax 0 - jsOr pin.discount 0) ∧
    (∀ (env : Env) (u : Nat) (req : CreateRequest) (s : St),
       req.pricing.total = none →
       (createOrder env u req s).1 = CreateOutcome.rejected CreateError.validation) := by
  refine ⟨?_, ?_, ?_, ?_, ?_, ?_⟩
  · intro pin st h
    simp [finalPricing, jsOr, h]
  · intro pin st h
    simp [finalPricing, jsOr, h]
  · intro pin st h
    simp [finalPricing, jsOr, h]
  · intro pin st t h h0
    simp [finalPricing, jsOr, h, h0]
  · intro pin st h
    simp [finalPricing, jsOr, h]
  · intro env u req s h
    have hrv : requestValid req = false := by
      unfold requestValid totalValid
      rw [h]
      simp
    unfold createOrder
    rw [if_pos hrv]

/-- Witness for C6 (amended) at concrete pricing inputs. -/
theorem C6_pricing_amended_witness :
    (finalPricing { subtotal := none, shipping := none, tax := none
                  , discount := none, total := some 9 } 4).shipping = 0 ∧
    (finalPricing { subtotal := none, shipping := none, tax := none
                  , discount := none, total := some 9 } 4).total = 9 ∧
    (finalPricing { subtotal := none, shipping := some 2, tax := none
                  , discount := none, total := some 0 } 10).total = 12 ∧
    (createOrder envW 4 reqNoTotal sW).1
      = CreateOutcome.rejected CreateError.validation := by
  refine ⟨?_, ?_, ?_, ?_⟩
  · exact C6_pricing_amended.1 _ 4 rfl
  · exact C6_pricing_amended.2.2.2.1 _ 4 9 rfl (by norm_num)
  · exact (C6_pricing_amended.2.2.2.2.1 _ 10 rfl).trans (by decide)
  · exact C6_pricing_amended.2.2.2.2.2 envW 4 reqNoTotal sW rfl

/-- C9: every successfully created order is persisted with status pending and
with payment status pending, regardless of the payment object — including any
payment status — the caller supplied. -/
theorem C9_created_pending (env : Env) (u : Nat) (req : CreateRequest) (s : St)
    (oid : Nat) (o : Order)
    (hfresh : ∀ q ∈ s.orders, q.id < s.nextOrderId)
    (h : (createOrder env u req s).1 = CreateOutcome.success oid)
    (hfind : findOrder (createOrder env u req s).2.orders oid = some o) :
    o.status = OrderStatus.pending ∧ o.payment.status = PayStatus.pending := by
  obtain ⟨hoid, ois, sub, hpi, hov, hdec, hord, hnext⟩ := createOrder_success_inv h
  rw [hord] at hfind
  subst hoid
  have hfr : ∀ q ∈ s.orders, q.id ≠ (mkOrder env u req s ois sub).id := by
    intro q hq
    have hlt := hfresh q hq
    rw [show (mkOrder env u req s ois sub).id = s.nextOrderId from rfl]
    omega
  have h2 : findOrder (s.orders ++ [mkOrder env u req s ois sub]) s.nextOrderId
      = some (mkOrder env u req s ois sub) := findOrder_append_fresh hfr
  rw [h2] at hfind
  have ho : o = mkOrder env u req s ois sub := ((Option.some.injEq _ _).mp hfind).symm
  rw [ho]
  exact ⟨rfl, rfl⟩

/-- Witness for C9: a creation that supplies payment status "paid" is
persisted pending/pending. -/
theorem C9_created_pending_witness :
    ((findOrder (createOrder envW 4 reqPaid sW).2.orders 7).map (fun o => o.status)
      = some OrderStatus.pending) ∧
    ((findOrder (createOrder envW 4 reqPaid sW).2.orders 7).map
        (fun o => o.payment.status) = some PayStatus.pending) := by
  rcases ho : findOrder (createOrder envW 4 reqPaid sW).2.orders 7 with _ | o
  · exact absurd ho (by decide)
  · have h := C9_created_pending envW 4 reqPaid sW 7 o (by decide) (by decide) ho
    simp only [Option.map_some']
    exact ⟨congrArg some h.1, congrArg some h.2⟩


/-- C1: requests that fail a business-rule check are rejected with the store
untouched (no counter mutated, no order persisted), and requests that succeed
persist an order and decrement each referenced tracked product's stock by the
total ordered quantity. -/
theorem C1_all_or_nothing (env : Env) (u : Nat) (req : CreateRequest) (s : St) :
    (∀ e, (createOrder env u req s).1 = CreateOutcome.rejected e →
      (createOrder env u req s).2 = s) ∧
    (∀ oid, (createOrder env u req s).1 = CreateOutcome.success oid →
      (findOrder (createOrder env u req s).2.orders oid).isSome = true ∧
      (∀ pid p, findProduct s.products pid = some p → p.stock.trackInventory = true →
        stockOf (createOrder env u req s).2.products pid
          = some (p.stock.quantity - qtySum req.items pid))) := by
  constructor
  · intro e he
    exact createOrder_rejected_state he
  · intro oid hsu
    obtain ⟨hoid, ois, sub, hpi, hov, hdec, hord, hnext⟩ := createOrder_success_inv hsu
    subst hoid
    constructor
    · have hfr : ∀ q ∈ s.orders, q.id < s.nextOrderId →
          q.id ≠ (mkOrder env u req s ois sub).id := by
        intro q _ h1
        rw [show (mkOrder env u req s ois sub).id = s.nextOrderId from rfl]
        omega
      rw [hord]
      rcases hfo : findOrder (s.orders ++ [mkOrder env u req s ois sub]) s.nextOrderId
        with _ | o
      · exfalso
        have hmem : (mkOrder env u req s ois sub) ∈
            s.orders ++ [mkOrder env u req s ois sub] := by simp
        have := List.find?_eq_none.mp hfo _ hmem
        apply this
        rw [show (mkOrder env u req s ois sub).id = s.nextOrderId from rfl]
        exact beq_self_eq_true _
      · rfl
    · intro pid p hfp htr
      have hpt := (decrementLoop_ok req.items s.products
        ((createOrder env u req s).2.products) hdec).1 pid
      unfold stockOf
      rw [hpt, hfp]
      simp only [Option.map_some']
      unfold decTrans
      rw [if_pos htr]

/-- Witness for C1: an insufficient-stock request leaves the store unchanged;
a successful request persists the order and decrements stock from 10 to 8. -/
theorem C1_all_or_nothing_witness :
    (createOrder envW 4 reqBig sLow).2 = sLow ∧
    stockOf (createOrder envW 4 reqW sW).2.products 1 = some 8 := by
  constructor
  · exact (C1_all_or_nothing envW 4 reqBig sLow).1 CreateError.insufficientStock (by decide)
  · have h := ((C1_all_or_nothing envW 4 reqW sW).2 7 (by decide)).2 1 pW (by decide) rfl
    exact h.trans (by decide)

/-- C2: non-negative stock of tracked products is an invariant of the store:
it is preserved by every order creation and by every status update (any save
that would write a negative quantity is rejected by the schema's min-0
constraint, leaving the previous value in place). -/
theorem C2_stock_nonneg (env env2 : Env) (u : Nat) (req : CreateRequest) (s : St)
    (oid : Nat) (statusStr : String) (tn : Option String) (ed : Option Nat)
    (h : ∀ p ∈ s.products, p.stock.trackInventory = true → 0 ≤ p.stock.quantity) :
    (∀ p ∈ (createOrder env u req s).2.products,
      p.stock.trackInventory = true → 0 ≤ p.stock.quantity) ∧
    (∀ p ∈ (updateStatus env2 oid statusStr tn ed s).2.products,
      p.stock.trackInventory = true → 0 ≤ p.stock.quantity) := by
  constructor
  · intro p hp htr
    have hps : (createOrder env u req s).2.products = s.products ∨
        (createOrder env u req s).2.products = (decrementLoop req.items s.products).1 := by
      rcases createOrder_cases env u req s with ⟨e, he⟩ | he | ⟨ois, sub, _, _, _, _, he⟩
      · rw [he]
        exact Or.inl rfl
      · rw [he]
        exact Or.inl rfl
      · rw [he]
        exact Or.inr rfl
    rcases hps with he | he
    · rw [he] at hp
      exact h p hp htr
    · rw [he] at hp
      rcases decrementLoop_mem req.items s.products p hp with hmem | hval
      · exact h p hmem htr
      · exact hval.2
  · intro p hp htr
    have hps : (updateStatus env2 oid statusStr tn ed s).2.products = s.products ∨
        ∃ o0 : Order, (updateStatus env2 oid statusStr tn ed s).2.products
          = (restoreLoop o0.items s.products).1 := by
      unfold updateStatus
      rcases hpp : parseStatus statusStr with _ | st
      · simp only [hpp]
        exact Or.inl trivial
      · simp only [hpp]
        rcases hf : findOrder s.orders oid with _ | o0
        · simp only [hf]
          exact Or.inl trivial
        · simp only [hf]
          split
          · split
            · split
              · exact Or.inr ⟨_, rfl⟩
              · exact Or.inr ⟨_, rfl⟩
            · exact Or.inr ⟨_, rfl⟩
          · split
            · exact Or.inl rfl
            · exact Or.inl rfl
    rcases hps with he | ⟨o0, he⟩
    · rw [he] at hp
      exact h p hp htr
    · rw [he] at hp
      rcases restoreLoop_mem o0.items s.products p hp with hmem | hval
      · exact h p hmem htr
      · exact hval.2

/-- Witness for C2: concrete creation and cancellation keep the tracked stock
non-negative. -/
theorem C2_stock_nonneg_witness :
    ((createOrder envW 4 reqW sW).2.products.all
      (fun p => decide (p.stock.trackInventory = true → 0 ≤ p.stock.quantity))) = true ∧
    ((updateStatus envW 1 "cancelled" none none sOrd).2.products.all
      (fun p => decide (p.stock.trackInventory = true → 0 ≤ p.stock.quantity))) = true := by
  have h1 := (C2_stock_nonneg envW envW 4 reqW sW 1 "cancelled" none none
    (by decide)).1
  have h2 := (C2_stock_nonneg envW envW 4 reqW sOrd 1 "cancelled" none none
    (by decide)).2
  constructor
  · rw [List.all_eq_true]
    intro p hp
    rw [decide_eq_true_eq]
    exact h1 p hp
  · rw [List.all_eq_true]
    intro p hp
    rw [decide_eq_true_eq]
    exact h2 p hp


/-- C7 counterexample: a test order of two units against a tracked product
with stock 0 does not succeed with stock decremented to −2; the order is
persisted but the stock save is rejected, the response is a server error, and
stock stays 0. -/
theorem C7_counterexample :
    (createOrder envW 4 reqTest sZ).1 = CreateOutcome.stockSaveFailed 7 ∧
    ¬ (createOrder envW 4 reqTest sZ).1 = CreateOutcome.success 7 ∧
    stockOf (createOrder envW 4 reqTest sZ).2.products 1 = some 0 ∧
    ¬ stockOf (createOrder envW 4 reqTest sZ).2.products 1 = some (-2) ∧
    (findOrder (createOrder envW 4 reqTest sZ).2.orders 7).isSome = true := by
  refine ⟨?_, ?_, ?_, ?_, ?_⟩ <;> decide

/-- C7 (amended): with isTest = true, a request against a tracked, active
product with stockQuantity = 0 passes every validation (the sufficiency check
is skipped) and the order is persisted, but the post-create stock decrement is
rejected by the product schema's min-0 constraint: the request ends in a
server error and the product's stock is unchanged at 0. -/
theorem C7_test_order_zero_stock (env : Env) (u : Nat) (s : St) (pid : Nat)
    (p : Product) (q : Int) (addr : String) (pin : PricingInput) (t : Int)
    (hfp : findProduct s.products pid = some p)
    (hact : p.isActive = true)
    (htr : p.stock.trackInventory = true)
    (hq0 : p.stock.quantity = 0)
    (hq : 1 ≤ q)
    (haddr : ¬ addr = "")
    (htot : pin.total = some t)
    (ht0 : 0 ≤ t)
    (hord : s.orders = []) :
    (createOrder env u
      { items := [{ product := some pid, quantity := q }]
      , shippingAddress := addr, billingAddress := none
      , pricing := pin, payment := none, notes := none, isTest := some true } s).1
      = CreateOutcome.stockSaveFailed s.nextOrderId ∧
    (createOrder env u
      { items := [{ product := some pid, quantity := q }]
      , shippingAddress := addr, billingAddress := none
      , pricing := pin, payment := none, notes := none, isTest := some true } s).2.products
      = s.products ∧
    (createOrder env u
      { items := [{ product := some pid, quantity := q }]
      , shippingAddress := addr, billingAddress := none
      , pricing := pin, payment := none, notes := none, isTest := some true } s).2.orders.length = 1 := by
  have h1 : ¬ requestValid
      { items := [{ product := some pid, quantity := q }]
      , shippingAddress := addr, billingAddress := none
      , pricing := pin, payment := none, notes := none, isTest := some true } = false := by
    simp [requestValid, totalValid, htot, ht0, haddr]
  have h2 : ¬ invalidMethod
      { items := [{ product := some pid, quantity := q }]
      , shippingAddress := addr, billingAddress := none
      , pricing := pin, payment := none, notes := none, isTest := some true } = true := by
    simp [invalidMethod, jsOrStr]
  have h3 : ¬ missingBankTxn
      { items := [{ product := some pid, quantity := q }]
      , shippingAddress := addr, billingAddress := none
      , pricing := pin, payment := none, notes := none, isTest := some true } = true := by
    simp [missingBankTxn]
  have hpi : processItems true s.products [{ product := some pid, quantity := q }]
      = Except.ok ([{ product := p.id, name := p.name, price := p.price, quantity := q
                    , image := p.images.head?.getD "" }], p.price * q + 0) := by
    simp [processItems, hfp, hact]
  have hnv : ¬ validProduct
      { p with
        stock := { quantity := p.stock.quantity - q, trackInventory := true }
        sales := { count := p.sales.count + q
                 , revenue := p.sales.revenue + p.price * q } } := by
    rintro ⟨-, h2v⟩
    simp only [] at h2v
    rw [hq0] at h2v
    omega
  have hsv : saveProduct s.products
      { p with
        stock := { quantity := p.stock.quantity - q, trackInventory := true }
        sales := { count := p.sales.count + q
                 , revenue := p.sales.revenue + p.price * q } } = none := by
    unfold saveProduct
    rw [if_neg hnv]
  have hdecr : decrementLoop [{ product := some pid, quantity := q }] s.products
      = (s.products, false) := by
    simp [decrementLoop, hfp, htr, hsv]
  unfold createOrder
  rw [if_neg h1, if_neg h2, if_neg h3]
  simp only [Option.getD_some, hpi, hdecr]
  have hov : ∀ r : CreateRequest, orderValid (mkOrder env u r s
      [{ product := p.id, name := p.name, price := p.price, quantity := q
       , image := p.images.head?.getD "" }] (p.price * q + 0)) := by
    intro r it hit
    simp only [mkOrder_items, List.mem_singleton] at hit
    rw [hit]
    exact hq
  have hex : ∀ r : CreateRequest, orderNumberExists s.orders
      (mkOrder env u r s
        [{ product := p.id, name := p.name, price := p.price, quantity := q
         , image := p.images.head?.getD "" }] (p.price * q + 0)).orderNumber = false := by
    intro r
    rw [hord]
    rfl
  rw [if_pos ⟨hov _, hex _⟩]
  refine ⟨?_, ?_, ?_⟩
  · simp [mkOrder_id]
  · simp
  · simp [hord]


/-- Witness for C7 (amended) at the concrete zero-stock store. -/
theorem C7_test_order_zero_stock_witness :
    (createOrder envW 4 reqTest sZ).1 = CreateOutcome.stockSaveFailed 7 ∧
    (createOrder envW 4 reqTest sZ).2.products = sZ.products ∧
    (createOrder envW 4 reqTest sZ).2.orders.length = 1 :=
  C7_test_order_zero_stock envW 4 sZ 1 pZ 2 "addr"
    { subtotal := none, shipping := none, tax := none, discount := none
    , total := some 10 } 10
    (by decide) (by decide) (by decide) (by decide) (by decide) (by decide)
    (by decide) (by decide) (by decide)

/-- C5 counterexample: a delivered order is moved back to pending by a status
update — delivered is not terminal and pending is re-entered from it. -/
theorem C5_counterexample :
    ((findOrder sDelivered.orders 1).map (fun o => o.status)
      = some OrderStatus.delivered) ∧
    ((findOrder (updateStatus envW 1 "pending" none none sDelivered).2.orders 1).map
        (fun o => o.status) = some OrderStatus.pending) := by
  refine ⟨?_, ?_⟩ <;> decide

/-- C5 (amended): the status-update operation assigns any of the six
recognized statuses regardless of the order's current status — delivered and
cancelled orders are not terminal and pending can be re-entered — whenever
the stored order and products satisfy the schema constraints, so that the
write itself succeeds. -/
theorem C5_status_not_terminal (env : Env) (oid : Nat) (statusStr : String)
    (st : OrderStatus) (tn : Option String) (ed : Option Nat) (s : St) (o0 : Order)
    (hparse : parseStatus statusStr = some st)
    (hfind : findOrder s.orders oid = some o0)
    (hov : orderValid o0)
    (hstore : ∀ p ∈ s.products, validProduct p) :
    (updateStatus env oid statusStr tn ed s).1 = UpdateOutcome.updated oid ∧
    (findOrder (updateStatus env oid statusStr tn ed s).2.orders oid).map
        (fun o => o.status) = some st := by
  have hid : o0.id = oid := findOrder_id hfind
  by_cases hc : st = OrderStatus.cancelled ∧ (applyStatus env st o0).cancelledAt = none
  · obtain ⟨hst, hcanA⟩ := hc
    subst hst
    have hcan : o0.cancelledAt = none := by
      rw [applyStatus_cancelledAt] at hcanA
      exact hcanA
    have hok : (restoreLoop o0.items s.products).2 = true :=
      restoreLoop_succeeds o0.items s.products hov
        (fun it hit p hfpp htrp => hstore p (mem_of_findProduct hfpp))
    rw [updateStatus_cancel_run env tn ed hparse hfind hcan hok hov]
    refine ⟨rfl, ?_⟩
    rw [show ((UpdateOutcome.updated oid,
        { s with
          products := (restoreLoop o0.items s.products).1
          , orders := saveOrder s.orders
                        (withTracking { applyStatus env OrderStatus.cancelled o0 with
                                        cancelledAt := some env.now } tn ed) }) :
        UpdateOutcome × St).2.orders
      = saveOrder s.orders
          (withTracking { applyStatus env OrderStatus.cancelled o0 with
                          cancelledAt := some env.now } tn ed) from rfl]
    rw [findOrder_saveOrder]
    have hid5 : oid = (withTracking { applyStatus env OrderStatus.cancelled o0 with
        cancelledAt := some env.now } tn ed).id := by
      rw [withTracking_id]
      rw [show ({ applyStatus env OrderStatus.cancelled o0 with
          cancelledAt := some env.now } : Order).id
        = (applyStatus env OrderStatus.cancelled o0).id from rfl]
      rw [applyStatus_id, hid]
    rw [if_pos hid5, hfind]
    simp only [Option.map_some']
    congr 1
    rw [withTracking_status]
    rw [show ({ applyStatus env OrderStatus.cancelled o0 with
        cancelledAt := some env.now } : Order).status
      = (applyStatus env OrderStatus.cancelled o0).status from rfl]
    rw [applyStatus_status]
  · rw [updateStatus_else_run env tn ed hparse hfind hc hov]
    refine ⟨rfl, ?_⟩
    rw [show ((UpdateOutcome.updated oid,
        { s with orders := saveOrder s.orders
                             (withTracking (applyStatus env st o0) tn ed) }) :
        UpdateOutcome × St).2.orders
      = saveOrder s.orders (withTracking (applyStatus env st o0) tn ed) from rfl]
    rw [findOrder_saveOrder]
    have hid5 : oid = (withTracking (applyStatus env st o0) tn ed).id := by
      rw [withTracking_id, applyStatus_id, hid]
    rw [if_pos hid5, hfind]
    simp only [Option.map_some']
    congr 1
    rw [withTracking_status, applyStatus_status]

/-- Witness for C5 (amended): the delivered order of `sDelivered` is moved
back to pending. -/
theorem C5_status_not_terminal_witness :
    (updateStatus envW 1 "pending" none none sDelivered).1 = UpdateOutcome.updated 1 ∧
    (findOrder (updateStatus envW 1 "pending" none none sDelivered).2.orders 1).map
        (fun o => o.status) = some OrderStatus.pending :=
  C5_status_not_terminal envW 1 "pending" OrderStatus.pending none none sDelivered
    { oW with status := OrderStatus.delivered }
    (by decide) (by decide) (by decide) (by decide)


/-- C4: cancelling a successfully created order restores exactly the stock and
sales deltas applied at creation (every product returns to its pre-creation
record), sets cancelledAt once, and cancelling the same order a second time
changes no product and keeps the original cancelledAt — the restoration runs
only once. -/
theorem C4_cancel_restores_once (env env2 env3 : Env) (u : Nat) (req : CreateRequest)
    (s : St) (oid : Nat)
    (hfresh : ∀ q2 ∈ s.orders, q2.id < s.nextOrderId)
    (hsucc : (createOrder env u req s).1 = CreateOutcome.success oid) :
    (∀ pid, findProduct (updateStatus env2 oid "cancelled" none none
        (createOrder env u req s).2).2.products pid = findProduct s.products pid) ∧
    ((findOrder (updateStatus env2 oid "cancelled" none none
        (createOrder env u req s).2).2.orders oid).map (fun o => o.cancelledAt)
      = some (some env2.now)) ∧
    ((updateStatus env3 oid "cancelled" none none
        (updateStatus env2 oid "cancelled" none none
          (createOrder env u req s).2).2).2.products
      = (updateStatus env2 oid "cancelled" none none
          (createOrder env u req s).2).2.products) ∧
    ((findOrder (updateStatus env3 oid "cancelled" none none
        (updateStatus env2 oid "cancelled" none none
          (createOrder env u req s).2).2).2.orders oid).map (fun o => o.cancelledAt)
      = some (some env2.now)) := by
  obtain ⟨hoid, ois, sub, hpi, hov, hdec, hord, hnext⟩ := createOrder_success_inv hsucc
  subst hoid
  obtain ⟨ihq, ihr, ihm⟩ := processItems_ok req.items (req.isTest.getD false)
    s.products ois sub hpi
  have hovmk : orderValid (mkOrder env u req s ois sub) := hov
  have hfr : ∀ q2 ∈ s.orders, q2.id ≠ (mkOrder env u req s ois sub).id := by
    intro q2 hq2
    have hlt := hfresh q2 hq2
    rw [mkOrder_id]
    omega
  have hfind1 : findOrder (createOrder env u req s).2.orders s.nextOrderId = some (mkOrder env u req s ois sub) := by
    rw [hord]
    have hap := findOrder_append_fresh hfr
    rw [mkOrder_id] at hap
    exact hap
  obtain ⟨hpt, hval⟩ := decrementLoop_ok req.items s.products
    (createOrder env u req s).2.products hdec
  have hq1 : ∀ it ∈ ois, 1 ≤ it.quantity := by
    intro it hit
    exact hovmk it hit
  have hp1 : ∀ it ∈ ois, ∀ p2, findProduct (createOrder env u req s).2.products it.product
      = some p2 → p2.stock.trackInventory = true → validProduct p2 := by
    intro it hit p2 hfp2 htr2
    rcases ihm it hit with ⟨rit, hrit, hre⟩
    exact hval it.product p2 hfp2 htr2 ⟨rit, hrit, hre⟩
  have hok1 : (restoreLoop ois (createOrder env u req s).2.products).2 = true :=
    restoreLoop_succeeds ois (createOrder env u req s).2.products hq1 hp1
  have hok1m : (restoreLoop (mkOrder env u req s ois sub).items (createOrder env u req s).2.products).2 = true := by
    rw [mkOrder_items]
    exact hok1
  have hcan1 : (mkOrder env u req s ois sub).cancelledAt = none := rfl
  have hparse : parseStatus "cancelled" = some OrderStatus.cancelled := rfl
  have hrun1 := updateStatus_cancel_run env2 none none hparse hfind1 hcan1 hok1m hovmk
  have hprods2 : (updateStatus env2 s.nextOrderId "cancelled" none none (createOrder env u req s).2).2.products = (restoreLoop (mkOrder env u req s ois sub).items (createOrder env u req s).2.products).1 := by
    rw [hrun1]
  have horders2 : (updateStatus env2 s.nextOrderId "cancelled" none none (createOrder env u req s).2).2.orders = saveOrder (createOrder env u req s).2.orders
      (withTracking { applyStatus env2 OrderStatus.cancelled (mkOrder env u req s ois sub) with
      cancelledAt := some env2.now } none none) := by
    rw [hrun1]
  have hidO5 : s.nextOrderId = (withTracking { applyStatus env2 OrderStatus.cancelled (mkOrder env u req s ois sub) with
      cancelledAt := some env2.now } none none).id := by
    rw [withTracking_id]
    rw [show ({ applyStatus env2 OrderStatus.cancelled (mkOrder env u req s ois sub) with
        cancelledAt := some env2.now } : Order).id
      = (applyStatus env2 OrderStatus.cancelled (mkOrder env u req s ois sub)).id from rfl]
    rw [applyStatus_id, mkOrder_id]
  have hfind2 : findOrder (updateStatus env2 s.nextOrderId "cancelled" none none (createOrder env u req s).2).2.orders s.nextOrderId = some
      (withTracking { applyStatus env2 OrderStatus.cancelled (mkOrder env u req s ois sub) with
      cancelledAt := some env2.now } none none) := by
    rw [horders2, findOrder_saveOrder, if_pos hidO5, hfind1]
    simp only [Option.map_some']
  refine ⟨?_, ?_, ?_, ?_⟩
  · intro pid
    rw [hprods2, mkOrder_items]
    have hres : restoreLoop ois (createOrder env u req s).2.products
        = ((restoreLoop ois (createOrder env u req s).2.products).1, true) := by
      rw [← hok1]
    have hrpt := restoreLoop_ok ois (createOrder env u req s).2.products
      (restoreLoop ois (createOrder env u req s).2.products).1 hres
    rw [hrpt pid, hpt pid]
    cases hfp : findProduct s.products pid with
    | none => simp
    | some p =>
      simp only [Option.map_some']
      exact congrArg some (resTrans_decTrans (ihq pid) (ihr pid p hfp))
  · rw [horders2, findOrder_saveOrder, if_pos hidO5, hfind1]
    simp only [Option.map_some']
    rw [withTracking_cancelledAt]
  · have hovO5 : orderValid (withTracking { applyStatus env2 OrderStatus.cancelled (mkOrder env u req s ois sub) with
      cancelledAt := some env2.now } none none) := by
      unfold orderValid
      rw [withTracking_items]
      rw [show ({ applyStatus env2 OrderStatus.cancelled (mkOrder env u req s ois sub) with
          cancelledAt := some env2.now } : Order).items
        = (applyStatus env2 OrderStatus.cancelled (mkOrder env u req s ois sub)).items from rfl]
      rw [applyStatus_items, mkOrder_items]
      exact hq1
    have hnc2 : ¬ (OrderStatus.cancelled = OrderStatus.cancelled ∧
        (applyStatus env3 OrderStatus.cancelled
          (withTracking { applyStatus env2 OrderStatus.cancelled (mkOrder env u req s ois sub) with
      cancelledAt := some env2.now } none none)).cancelledAt = none) := by
      rintro ⟨-, hx⟩
      rw [applyStatus_cancelledAt, withTracking_cancelledAt] at hx
      simp at hx
    have hrun2 := updateStatus_else_run env3 none none hparse hfind2 hnc2 hovO5
    rw [hrun2]
  · have hovO5 : orderValid (withTracking { applyStatus env2 OrderStatus.cancelled (mkOrder env u req s ois sub) with
      cancelledAt := some env2.now } none none) := by
      unfold orderValid
      rw [withTracking_items]
      rw [show ({ applyStatus env2 OrderStatus.cancelled (mkOrder env u req s ois sub) with
          cancelledAt := some env2.now } : Order).items
        = (applyStatus env2 OrderStatus.cancelled (mkOrder env u req s ois sub)).items from rfl]
      rw [applyStatus_items, mkOrder_items]
      exact hq1
    have hnc2 : ¬ (OrderStatus.cancelled = OrderStatus.cancelled ∧
        (applyStatus env3 OrderStatus.cancelled
          (withTracking { applyStatus env2 OrderStatus.cancelled (mkOrder env u req s ois sub) with
      cancelledAt := some env2.now } none none)).cancelledAt = none) := by
      rintro ⟨-, hx⟩
      rw [applyStatus_cancelledAt, withTracking_cancelledAt] at hx
      simp at hx
    have hrun2 := updateStatus_else_run env3 none none hparse hfind2 hnc2 hovO5
    have horders3 : (updateStatus env3 s.nextOrderId "cancelled" none none (updateStatus env2 s.nextOrderId "cancelled" none none (createOrder env u req s).2).2).2.orders = saveOrder (updateStatus env2 s.nextOrderId "cancelled" none none (createOrder env u req s).2).2.orders
        (withTracking (applyStatus env3 OrderStatus.cancelled (withTracking { applyStatus env2 OrderStatus.cancelled (mkOrder env u req s ois sub) with
      cancelledAt := some env2.now } none none)) none none) := by
      rw [hrun2]
    have hidO5p : s.nextOrderId = (withTracking (applyStatus env3 OrderStatus.cancelled (withTracking { applyStatus env2 OrderStatus.cancelled (mkOrder env u req s ois sub) with
      cancelledAt := some env2.now } none none)) none none).id := by
      rw [withTracking_id, applyStatus_id]
      exact hidO5
    rw [horders3, findOrder_saveOrder, if_pos hidO5p, hfind2]
    simp only [Option.map_some']
    rw [withTracking_cancelledAt, applyStatus_cancelledAt, withTracking_cancelledAt]


/-- Witness for C4: creating from `sW` then cancelling returns product 1's
record to its original state, the cancellation stamp is the first
cancellation's clock, and a second cancellation changes no product. -/
theorem C4_cancel_restores_once_witness :
    findProduct (updateStatus envW2 7 "cancelled" none none
        (createOrder envW 4 reqW sW).2).2.products 1 = some pW ∧
    ((findOrder (updateStatus envW2 7 "cancelled" none none
        (createOrder envW 4 reqW sW).2).2.orders 7).map (fun o => o.cancelledAt)
      = some (some 2000)) ∧
    ((updateStatus envW3 7 "cancelled" none none
        (updateStatus envW2 7 "cancelled" none none
          (createOrder envW 4 reqW sW).2).2).2.products
      = (updateStatus envW2 7 "cancelled" none none
          (createOrder envW 4 reqW sW).2).2.products) := by
  have h := C4_cancel_restores_once envW envW2 envW3 4 reqW sW 7 (by decide) (by decide)
  exact ⟨(h.1 1).trans (by decide), h.2.1, h.2.2.1⟩


end Backend
